import Mathlib

/-!
Verification of the streaming chat relay core of the LLM-FastAPI repository.

The definitions below are a shallow embedding of the Python sources:
  * `src/src/app/core/config.py`       — the `ChatStreamSettings` constants;
  * `src/src/app/core/llm/utils.py`    — `extract_chunk_text`;
  * `src/src/app/core/utils/cache.py`  — `set_status` / `get_status`;
  * `src/src/app/services/chat.py`     — `producer` (with its `flush_to_redis`,
    `flush_to_db`, `check_cancellation` helpers), `stream_generator`,
    `reconnect_stream`, `clean_response`, `save_chat`;
  * `src/src/app/api/v1/chat.py`       — `start_chat`, `stop_chat`.

Async effects are sequentialised: the Redis list, the Redis status key and the
DB row become explicit state threaded through pure functions, and each upstream
event of the producer loop is one element of an event trace.
-/

namespace LLMFastAPI

/-! ## Configuration constants (`ChatStreamSettings` in `core/config.py`) -/

def HEARTBEAT_PLACEHOLDER : String := "<:<alive>:>"

def INTERRUPTED_PLACEHOLDER : String := "<:<interrupt>:>"

def FAILED_PLACEHOLDER : String := "<:<failed>:>"

def DONE_PLACEHOLDER : String := "<:<done>:>"

def REDIS_FLUSH_EVERY_N : Nat := 25

def DB_FLUSH_EVERY_M : Nat := 150

/-! ## `ChatStatus` (`schemas/chat.py`, a `StrEnum`) -/

inductive ChatStatus where
  | interrupted
  | active
  | completed
  | failed
deriving DecidableEq, Repr

/-- The string value of the `StrEnum` member (`.value` in Python). -/
def ChatStatus.val : ChatStatus → String
  | .interrupted => "interrupted"
  | .active => "active"
  | .completed => "completed"
  | .failed => "failed"

/-! ## The response cleaner (`clean_response` in `services/chat.py`)

`clean_response` runs `re.sub(hb|it|fl|dn, "", raw).strip()`.  `re.sub`
replaces the non-overlapping occurrences of the pattern scanning left to
right in a single pass; the four literals pairwise differ at index 3, so at
any position at most one of them matches and the order of the alternation is
irrelevant.  We embed this as a char-list scanner. -/

def hbL : List Char := HEARTBEAT_PLACEHOLDER.toList

def itL : List Char := INTERRUPTED_PLACEHOLDER.toList

def flL : List Char := FAILED_PLACEHOLDER.toList

def dnL : List Char := DONE_PLACEHOLDER.toList

/-- Boolean "is `p` a prefix of `s`" on char lists. -/
def isPrefixOfC : List Char → List Char → Bool
  | [], _ => true
  | _ :: _, [] => false
  | a :: as, b :: bs => a == b && isPrefixOfC as bs

/-- If one of the four sentinel literals matches at the head of `s`
(the regex alternation `hb|it|fl|dn`), return the remainder of `s` after it. -/
def matchSent (s : List Char) : Option (List Char) :=
  if isPrefixOfC hbL s then some (s.drop hbL.length)
  else if isPrefixOfC itL s then some (s.drop itL.length)
  else if isPrefixOfC flL s then some (s.drop flL.length)
  else if isPrefixOfC dnL s then some (s.drop dnL.length)
  else none

/-- Fuel-indexed single left-to-right pass of `re.sub(pattern, "", ·)`:
at each position either a sentinel matches (it is dropped and scanning resumes
after it) or the character is kept.  Fuel `s.length` always suffices. -/
def removeSentF : Nat → List Char → List Char
  | _, [] => []
  | 0, s => s
  | n + 1, c :: rest =>
    match matchSent (c :: rest) with
    | some tail => removeSentF n tail
    | none => c :: removeSentF n rest

/-- The pass `re.sub(hb|it|fl|dn, "", s)` on char lists. -/
def removeSent (s : List Char) : List Char := removeSentF s.length s

/-- Whitespace as stripped by Python `str.strip()` (ASCII part; the claims
never involve the further Unicode space characters Python also strips). -/
def isPySpace (c : Char) : Bool :=
  c = ' ' || c = '\t' || c = '\n' || c = '\r' || c = '\x0b' || c = '\x0c'

/-- Python `str.strip()`: drop leading and trailing whitespace. -/
def pyStrip (l : List Char) : List Char :=
  ((l.dropWhile isPySpace).reverse.dropWhile isPySpace).reverse

/-- Embedding of `clean_response` (`services/chat.py` lines 495-507):
strip all four internal placeholders, then `.strip()`. -/
def clean_response (raw : String) : String :=
  ⟨pyStrip (removeSent raw.toList)⟩

/-- Does `pat` occur as a contiguous substring of `l`? -/
def hasSub (pat : List Char) : List Char → Bool
  | [] => pat.isEmpty
  | c :: rest => isPrefixOfC pat (c :: rest) || hasSub pat rest

/-- A string that is exactly one of the four sentinel literals
(the membership test `chunk in (hb, dn, fl, it)` of the source). -/
def isSentinelLit (x : String) : Bool :=
  x = HEARTBEAT_PLACEHOLDER || x = DONE_PLACEHOLDER ||
  x = FAILED_PLACEHOLDER || x = INTERRUPTED_PLACEHOLDER

/-- A string that is one of the three terminal sentinel literals. -/
def isTermSent (x : String) : Bool :=
  x = DONE_PLACEHOLDER || x = FAILED_PLACEHOLDER || x = INTERRUPTED_PLACEHOLDER

/-- No sentinel literal occurs anywhere inside the string. -/
def sentinelFree (x : String) : Bool :=
  !(hasSub hbL x.toList) && !(hasSub itL x.toList) &&
  !(hasSub flL x.toList) && !(hasSub dnL x.toList)

/-! ## Upstream chunks (`core/llm/utils.py`)

`extract_chunk_text` is `chunk.choices[0].delta.content or ""` guarded by
`except (AttributeError, IndexError): return None`.  A malformed chunk
(no/empty `choices`) is modelled by an empty `choices` list; note that a
`None` `delta.content` is coerced to `""` by the `or ""`, it does NOT make
the function return `None`. -/

structure Usage where
  total_tokens : Option Nat
  input_tokens : Option Nat
  output_tokens : Option Nat
  reasoning_tokens : Option Nat
deriving DecidableEq, Repr

structure DeltaMsg where
  content : Option String
deriving DecidableEq, Repr

structure StreamChunk where
  choices : List DeltaMsg
  usage : Option Usage
deriving DecidableEq, Repr

/-- Embedding of `extract_chunk_text` (`core/llm/utils.py` lines 129-133). -/
def extract_chunk_text (c : StreamChunk) : Option String :=
  match c.choices with
  | [] => none
  | d :: _ => some (d.content.getD "")

/-! ## Producer (`producer` in `services/chat.py`, lines 115-304)

State of the producer task.  `redisList` is the content of the Redis list
`chat:buffer:<uuid>` (the Token Buffer) after the flushes executed so far;
`dbWrites` is the log of `UPDATE chat SET ...` statements issued, in order.
Background flush tasks are sequentialised at their creation point (§5 of the
spec guarantees in-order Buffer content for a single chat). -/

structure DBWriteValues where
  llm_response : String
  updated_at_set : Bool
  /-- Holds `some (usage, status.value)` exactly when the write was final AND
  `final_usage` was captured: the source adds the four token counters and
  `status` to the `values` dict only under `if final and final_usage:`. -/
  usageAndStatus : Option (Usage × String)
deriving DecidableEq, Repr

structure PState where
  redis_buf : List String
  db_buf : List String
  all_chunks : List String
  queued : List String
  redisList : List String
  dbWrites : List DBWriteValues
  final_usage : Option Usage
deriving DecidableEq, Repr

def initPState : PState :=
  { redis_buf := [], db_buf := [], all_chunks := [], queued := [],
    redisList := [], dbWrites := [], final_usage := none }

/-- Embedding of `flush_to_redis` (lines 130-149): batch RPUSH of `items`
onto the Buffer.
`redisOk = false` models the pipeline raising: the exception is caught,
logged and swallowed, leaving the Buffer unchanged. -/
def flush_to_redis (redisOk : Bool) (s : PState) (items : List String) : PState :=
  if items.isEmpty then s
  else if redisOk then { s with redisList := s.redisList ++ items }
  else s

/-- Embedding of `flush_to_db` (lines 151-182): one UPDATE of the Chat row.
On a final
write the content is cleaned and, only when `final_usage` is set, the four
usage counters and `status` are added to the same UPDATE. -/
def flush_to_db (s : PState) (items : List String) (final : Bool)
    (status : ChatStatus) : PState :=
  if items.isEmpty then s
  else
    let content := if final then clean_response (String.join items)
                   else String.join items
    let us : Option (Usage × String) :=
      if final then
        match s.final_usage with
        | some u => some (u, status.val)
        | none => none
      else none
    { s with dbWrites := s.dbWrites ++
        [{ llm_response := content, updated_at_set := true, usageAndStatus := us }] }

/-- Inputs of one `check_cancellation` call (lines 184-198): either the Redis
status read succeeds with the given value, or it raises and the producer
falls back to reading `Chat.status` from the DB. -/
inductive CancelProbe where
  | redisVal (st : Option ChatStatus)
  | redisDown (dbStatus : Option String)
deriving DecidableEq, Repr

/-- Embedding of `check_cancellation`: the Redis status (or its DB fallback)
equals `interrupted`. -/
def check_cancellation : CancelProbe → Bool
  | .redisVal st => st = some ChatStatus.interrupted
  | .redisDown db => db = some (ChatStatus.interrupted.val)

/-- One iteration's upstream outcome inside the `while True` loop:
either a chunk arrived (`anext` returned) or `asyncio.wait_for` timed out
(`stalled`, which synthesizes a HEARTBEAT).  The attached `CancelProbe` is
what the interrupt check at the end of that iteration would observe. -/
inductive LoopEvent where
  | chunkArrived (c : StreamChunk) (probe : CancelProbe)
  | stalled (probe : CancelProbe)
deriving DecidableEq, Repr

/-- Lines 244-258: append `text` to the three local buffers and the channel,
then run the two threshold flushes (Redis every `n`, partial DB every `m`). -/
def appendAndFlush (n m : Nat) (redisOk : Bool) (s : PState) (text : String) :
    PState :=
  let s := { s with redis_buf := s.redis_buf ++ [text],
                    db_buf := s.db_buf ++ [text],
                    all_chunks := s.all_chunks ++ [text],
                    queued := s.queued ++ [text] }
  let s := if n ≤ s.redis_buf.length then
      let s' := flush_to_redis redisOk s s.redis_buf
      { s' with redis_buf := [] }
    else s
  let s := if m ≤ s.db_buf.length then
      let s' := flush_to_db s s.db_buf false ChatStatus.completed
      { s' with db_buf := [] }
    else s
  s

/-- Lines 226-227: `if getattr(chunk, "usage", None): final_usage = ...`.
This runs before the `if text is None: continue`. -/
def usageUpdate (s : PState) (c : StreamChunk) : PState :=
  match c.usage with
  | some u => { s with final_usage := some u }
  | none => s

/-- The text an iteration contributes: the extracted chunk text, or the
HEARTBEAT placeholder on a stall.  `none` means the iteration appends
nothing (the `continue` of a failed extraction). -/
def eventText : LoopEvent → Option String
  | .chunkArrived c _ => extract_chunk_text c
  | .stalled _ => some HEARTBEAT_PLACEHOLDER

/-- The iteration's text (when any) is not a terminal sentinel literal. -/
def eventTextNonTerminal (e : LoopEvent) : Bool :=
  match eventText e with
  | some tx => !(isTermSent tx)
  | none => true

/-- The iteration's text (when any) contains no `<` character at all —
a sufficient condition for sentinel stripping to behave compositionally. -/
def eventTextLtFree (e : LoopEvent) : Bool :=
  match e with
  | .chunkArrived c _ =>
    match extract_chunk_text c with
    | some tx => tx.toList.all (fun ch => !(ch == '<'))
    | none => true
  | .stalled _ => true

/-- One iteration of the producer loop (lines 217-266).  Returns the new
state and whether the loop broke because the interrupt check fired.  Usage is
captured before the `if text is None: continue`, so a malformed chunk still
records usage but appends nothing and skips the cancellation check. -/
def stepEvent (n m : Nat) (redisOk : Bool) (s : PState) (e : LoopEvent) :
    PState × Bool :=
  match e with
  | .chunkArrived c probe =>
    let s := usageUpdate s c
    match extract_chunk_text c with
    | none => (s, false)
    | some text =>
      let s := appendAndFlush n m redisOk s text
      if check_cancellation probe then
        ({ s with all_chunks := s.all_chunks ++ [INTERRUPTED_PLACEHOLDER],
                  queued := s.queued ++ [INTERRUPTED_PLACEHOLDER] }, true)
      else (s, false)
  | .stalled probe =>
    let s := appendAndFlush n m redisOk s HEARTBEAT_PLACEHOLDER
    if check_cancellation probe then
      ({ s with all_chunks := s.all_chunks ++ [INTERRUPTED_PLACEHOLDER],
                queued := s.queued ++ [INTERRUPTED_PLACEHOLDER] }, true)
    else (s, false)

/-- The producer loop over a trace of iteration events; stops early when an
iteration observed the interrupt. -/
def runLoop (n m : Nat) (redisOk : Bool) : PState → List LoopEvent → PState × Bool
  | s, [] => (s, false)
  | s, e :: es =>
    match stepEvent n m redisOk s e with
    | (s', true) => (s', true)
    | (s', false) => runLoop n m redisOk s' es

/-- How the loop ended when no interrupt was observed. -/
inductive Terminator where
  | eos
  | totalTimeout
  | upstreamErr
  | streamNone
deriving DecidableEq, Repr

/-- The value of the local `status` variable at finalization: `interrupted`
when the loop broke on the interrupt check, otherwise `completed` on normal
end-of-stream and `failed` on the total timeout, an upstream exception, or a
`None` stream handle. -/
def producerStatus (broke : Bool) (t : Terminator) : ChatStatus :=
  if broke then .interrupted
  else match t with
    | .eos => .completed
    | _ => .failed

/-- Lines 283-288: the terminal sentinel computed from `status`. -/
def terminalFor (st : ChatStatus) : String :=
  if st = .failed then FAILED_PLACEHOLDER
  else if st = .interrupted then INTERRUPTED_PLACEHOLDER
  else DONE_PLACEHOLDER

/-- Everything observable of one whole producer run. -/
structure Outcome where
  /-- Final content of the Redis list `chat:buffer:<uuid>`. -/
  buffer : List String
  /-- Everything `queue.put` on the local SSE channel, in order. -/
  queued : List String
  all_chunks : List String
  dbWrites : List DBWriteValues
  /-- The terminal value of the local `status` variable. -/
  status : ChatStatus
  /-- The value written by the final `set_status`, `none` if that write failed
  (it is NOT wrapped in try/except). -/
  redisStatusSet : Option ChatStatus
  /-- Whether the producer coroutine ended with an uncaught exception
  (only the unguarded final `set_status` can cause this in the model). -/
  raised : Bool
  /-- Whether the loop broke on the interrupt check. -/
  interruptedBreak : Bool
deriving Repr

/-- The tail of the producer after the loop: the `except` handlers of the
total timeout / upstream exception (which append FAILED to `all_chunks` and
the channel) followed by the `finally` block of lines 281-304 (terminal
sentinel everywhere, synchronous Buffer flush, final DB write, final
`set_status`). -/
def producer_finalize (redisOk redisSetOk : Bool) (s : PState) (broke : Bool)
    (t : Terminator) : Outcome :=
  let status := producerStatus broke t
  let s := if ¬ broke ∧ (t = .totalTimeout ∨ t = .upstreamErr) then
      { s with all_chunks := s.all_chunks ++ [FAILED_PLACEHOLDER],
               queued := s.queued ++ [FAILED_PLACEHOLDER] }
    else s
  let terminal := terminalFor status
  let s := { s with redis_buf := s.redis_buf ++ [terminal],
                    db_buf := s.db_buf ++ [terminal],
                    all_chunks := s.all_chunks ++ [terminal],
                    queued := s.queued ++ [terminal] }
  let s := let s' := flush_to_redis redisOk s s.redis_buf
           { s' with redis_buf := [] }
  let s := flush_to_db s s.all_chunks true status
  { buffer := s.redisList, queued := s.queued, all_chunks := s.all_chunks,
    dbWrites := s.dbWrites, status := status,
    redisStatusSet := if redisSetOk then some status else none,
    raised := !redisSetOk,
    interruptedBreak := broke }

/-- The whole `producer` coroutine (lines 201-304) over an upstream trace.
When the stream handle is `None` (`t = .streamNone`) the loop is never
entered and the events are ignored.  `redisOk` is the outcome of every Buffer
pipeline, `redisSetOk` the outcome of the final `set_status`. -/
def producer_model (n m : Nat) (redisOk redisSetOk : Bool)
    (events : List LoopEvent) (t : Terminator) : Outcome :=
  let r := if t = .streamNone then (initPState, false)
           else runLoop n m redisOk initPState events
  producer_finalize redisOk redisSetOk r.1 r.2 t

/-! ## SSE Emitter (`stream_generator`, lines 308-348)

SSE frames are modelled structurally rather than as formatted strings. -/

inductive Frame where
  /-- The `event: init` frame (id is the chat uuid). -/
  | initFrame (chatUuid : String) (threadId : Option Nat)
  /-- A `: PING ...` comment line (no id, no event). -/
  | comment
  /-- An `event: chunk` frame carrying the chunk text as its data. -/
  | chunkF (id : Int) (text : String)
  /-- The frame `event: done`, `data: [DONE]`. -/
  | doneF (id : Int)
  /-- The frame `event: done`, `data: [INTERRUPT]`. -/
  | interruptF (id : Int)
  /-- The frame `event: failed`, `data: [FAILED]`. -/
  | failedF (id : Int)
deriving DecidableEq, Repr

/-- The emitter's read loop (lines 318-338): translate channel items into
frames until the first terminal sentinel; `chunk_idx` increments only on
`chunk` frames, heartbeats become comments. -/
def emitFrames (i : Int) : List String → List Frame
  | [] => []
  | c :: cs =>
    if c = HEARTBEAT_PLACEHOLDER then .comment :: emitFrames i cs
    else if c = DONE_PLACEHOLDER then [.doneF i]
    else if c = FAILED_PLACEHOLDER then [.failedF i]
    else if c = INTERRUPTED_PLACEHOLDER then [.interruptF i]
    else .chunkF i c :: emitFrames (i + 1) cs

/-- Embedding of `stream_generator`: the init frame, then the translated
channel. -/
def stream_generator (chatUuid : String) (threadId : Option Nat)
    (queued : List String) : List Frame :=
  .initFrame chatUuid threadId :: emitFrames 0 queued

/-! ## Reconnect Replayer (`reconnect_stream`, lines 352-490) -/

/-- Redis `LRANGE key start -1`: a negative `start` counts from the end of
the list (clamped at 0), and the slice runs through the last element. -/
def lrangeAll (l : List String) (start : Int) : List String :=
  let n : Int := l.length
  let s : Int := if start < 0 then max (n + start) 0 else start
  l.drop s.toNat

/-- Line 394: `sent_so_far = last_event_id if last_event_id != 0 else -1`. -/
def reconnect_sent_init (lastEventId : Int) : Int :=
  if lastEventId ≠ 0 then lastEventId else -1

/-- The slice of the Buffer fetched by the FIRST cache poll of a
reconnection: `lrange(buffer_key, sent_so_far, -1)`. -/
def reconnect_first_slice (buf : List String) (lastEventId : Int) : List String :=
  lrangeAll buf (reconnect_sent_init lastEventId)

/-- Lines 439-451: forward one poll's fetched chunks.  `sent_so_far` is
incremented for every fetched chunk; chunks equal to any of the four
placeholders are skipped; the rest become `chunk` frames with
`id: sent_so_far`.  Returns the frames and the updated `sent_so_far`. -/
def replayPoll (sent : Int) : List String → List Frame × Int
  | [] => ([], sent)
  | c :: cs =>
    let sent' := sent + 1
    if isSentinelLit c then replayPoll sent' cs
    else
      let r := replayPoll sent' cs
      (.chunkF sent' c :: r.1, r.2)

/-- Lines 458-468 (the DB fallback of the replayer): forward
`llm_response[db_content_sent:]` as one `chunk` frame with the CURRENT
`sent_so_far` as id — no sentinel stripping happens on this path. -/
def reconnect_db_frames (sent : Int) (full_content : String)
    (db_content_sent : Nat) : List Frame :=
  let new_content : String := ⟨full_content.toList.drop db_content_sent⟩
  if new_content = "" then [] else [.chunkF sent new_content]

/-! ## HTTP layer (`api/v1/chat.py`) -/

/-- The `ChatRequest` body (`schemas/chat.py`) restricted to the fields the core
dispatch reads; uuids are modelled as `Nat` surrogates. -/
structure ChatRequestM where
  user_prompt : String
  stream : Bool
  thread_id : Option Nat
  chat_uuid : Option Nat
deriving DecidableEq, Repr

/-- The Chat row fields the endpoints read and write. -/
structure ChatRow where
  uuid : Nat
  thread_id : Option Nat
  llm_response : String
  status : String
  user_prompt : String
deriving DecidableEq, Repr

structure DBModel where
  /-- The `chat_thread` rows as (id, thread_title). -/
  threads : List (Nat × String)
  chats : List ChatRow
deriving DecidableEq, Repr

/-- The Redis status keys: `chat:status:<uuid> → status string`. -/
structure RedisModel where
  statusOf : Nat → Option String

/-- Embedding of `set_status` (`core/utils/cache.py`): SET with TTL. -/
def set_status (r : RedisModel) (u : Nat) (s : ChatStatus) : RedisModel :=
  ⟨fun v => if v = u then some s.val else r.statusOf v⟩

/-- Embedding of `save_chat` (`services/chat.py` lines 24-79) for a string
`llm_response` (the branch the streaming path takes, with `""`): inside one
transaction, create a `ChatThread` titled with the first 100 chars of the
prompt when no `thread_id` was supplied, then insert the Chat row.
`freshThreadId` and `freshUuid` stand for the autoincrement id and the
`uuid7()` the database/ORM mint. -/
def save_chat (db : DBModel) (status : ChatStatus) (req : ChatRequestM)
    (llm_response : String) (freshThreadId freshUuid : Nat) :
    DBModel × ChatRow :=
  let tidAndDb : Nat × DBModel :=
    match req.thread_id with
    | some t => (t, db)
    | none => (freshThreadId,
        { db with threads := db.threads ++ [(freshThreadId, req.user_prompt.take 100)] })
  let row : ChatRow :=
    { uuid := freshUuid, thread_id := some tidAndDb.1,
      llm_response := llm_response, status := status.val,
      user_prompt := req.user_prompt }
  ({ tidAndDb.2 with chats := tidAndDb.2.chats ++ [row] }, row)

/-- What `POST /chat` returns, by kind. -/
inductive StartChatResult where
  /-- A `StreamingResponse(reconnect_stream(...), media_type="text/event-stream")`. -/
  | sseReconnect (lastEventId : Nat)
  /-- A `JSONResponse` with the stored text and status of a non-active row. -/
  | jsonTerminal (text status : String)
  /-- An `HTTPException(status_code = code)`. -/
  | httpError (code : Nat)
  /-- The `JSONResponse` of the non-streaming path. -/
  | jsonNonStream (chatUuid : Nat) (text : String)
  /-- A `StreamingResponse(stream_generator(...), media_type="text/event-stream")`
  with a producer task spawned for the freshly saved chat. -/
  | sseNew (chatUuid : Nat)
deriving DecidableEq, Repr

/-- Embedding of `start_chat` (`api/v1/chat.py` lines 30-114): `rowLookup` is
the result
of the `SELECT ... WHERE uuid = chat_uuid` on a reconnection; `llmText` the
result of the non-streaming `completion_call` (`none` models it returning
`None`).  Returns the DB, the Redis status store and the response. -/
def start_chat (req : ChatRequestM) (rowLookup : Option ChatRow)
    (lastEventId : Option Nat) (llmText : Option String)
    (db : DBModel) (redis : RedisModel) (freshThreadId freshUuid : Nat) :
    DBModel × RedisModel × StartChatResult :=
  match req.chat_uuid with
  | some _ =>
    -- reconnection attempt; absent Last-Event-ID is treated as 0
    match rowLookup with
    | none => (db, redis, .httpError 404)
    | some row =>
      if row.status = ChatStatus.active.val then
        (db, redis, .sseReconnect (lastEventId.getD 0))
      else
        (db, redis, .jsonTerminal row.llm_response row.status)
  | none =>
    if ¬ req.stream then
      match llmText with
      | none => (db, redis, .httpError 502)
      | some text =>
        let r := save_chat db .completed req text freshThreadId freshUuid
        (r.1, redis, .jsonNonStream r.2.uuid text)
    else
      let r := save_chat db .active req "" freshThreadId freshUuid
      let redis := set_status redis r.2.uuid .active
      (r.1, redis, .sseNew r.2.uuid)

/-! ## Status transitions (`stop_chat` and producer finalization)

For the monotonicity claims the two status-bearing stores of one chat are
reduced to the pair (Redis status value, Chat row status). -/

structure StoreState where
  redis : Option String
  /-- Here `none` models a missing Chat row. -/
  db : Option String
deriving DecidableEq, Repr

/-- Embedding of `stop_chat` (`api/v1/chat.py` lines 117-142): 404 when no
Redis status
exists, idempotent acknowledgement when it is not `active`, else write
`interrupted` to Redis and mirror it into the row when one exists. -/
def stop_chat (s : StoreState) : StoreState :=
  match s.redis with
  | none => s
  | some st =>
    if st ≠ ChatStatus.active.val then s
    else
      { redis := some ChatStatus.interrupted.val,
        db := match s.db with
          | some _ => some ChatStatus.interrupted.val
          | none => none }

/-- The status effect of producer finalization (lines 299-304): the final
DB write carries `status` only when usage was captured; `set_status` writes
the terminal status unconditionally. -/
def producer_finalize_status (s : StoreState) (st : ChatStatus)
    (usagePresent : Bool) : StoreState :=
  { redis := some st.val,
    db := if usagePresent then
        match s.db with
        | some _ => some st.val
        | none => none
      else s.db }

/-- A core operation touching the status stores after chat creation. -/
inductive CoreOp where
  | stopReq
  | finalize (broke : Bool) (t : Terminator) (usagePresent : Bool)
deriving DecidableEq, Repr

def applyOp (s : StoreState) : CoreOp → StoreState
  | .stopReq => stop_chat s
  | .finalize b t u => producer_finalize_status s (producerStatus b t) u

def applyOps (s : StoreState) : List CoreOp → StoreState
  | [] => s
  | op :: ops => applyOps (applyOp s op) ops

/-! ## Helper lemmas about the producer step -/

theorem usageUpdate_eq (s : PState) (c : StreamChunk) :
    usageUpdate s c
      = { s with final_usage := match c.usage with
                                | some u => some u
                                | none => s.final_usage } := by
  cases hu : c.usage <;> simp [usageUpdate, hu]

theorem flush_to_redis_concat (s : PState) (items : List String) :
    (flush_to_redis true s items).redisList = s.redisList ++ items := by
  unfold flush_to_redis
  split_ifs with h <;> simp_all [List.isEmpty_eq_true]

theorem flush_to_redis_norok (s : PState) (items : List String) :
    flush_to_redis false s items = s := by
  unfold flush_to_redis
  split_ifs <;> simp_all

theorem flush_to_redis_redis_buf (rok : Bool) (s : PState)
    (items : List String) :
    (flush_to_redis rok s items).redis_buf = s.redis_buf := by
  unfold flush_to_redis
  split_ifs <;> rfl

theorem flush_to_redis_db_buf (rok : Bool) (s : PState) (items : List String) :
    (flush_to_redis rok s items).db_buf = s.db_buf := by
  unfold flush_to_redis
  split_ifs <;> rfl

theorem flush_to_redis_all_chunks (rok : Bool) (s : PState)
    (items : List String) :
    (flush_to_redis rok s items).all_chunks = s.all_chunks := by
  unfold flush_to_redis
  split_ifs <;> rfl

theorem flush_to_redis_queued (rok : Bool) (s : PState) (items : List String) :
    (flush_to_redis rok s items).queued = s.queued := by
  unfold flush_to_redis
  split_ifs <;> rfl

theorem flush_to_redis_dbWrites (rok : Bool) (s : PState)
    (items : List String) :
    (flush_to_redis rok s items).dbWrites = s.dbWrites := by
  unfold flush_to_redis
  split_ifs <;> rfl

theorem flush_to_redis_final_usage (rok : Bool) (s : PState)
    (items : List String) :
    (flush_to_redis rok s items).final_usage = s.final_usage := by
  unfold flush_to_redis
  split_ifs <;> rfl

theorem flush_to_db_redis_buf (s : PState) (items : List String) (f : Bool)
    (st : ChatStatus) : (flush_to_db s items f st).redis_buf = s.redis_buf := by
  unfold flush_to_db
  split_ifs <;> rfl

theorem flush_to_db_db_buf (s : PState) (items : List String) (f : Bool)
    (st : ChatStatus) : (flush_to_db s items f st).db_buf = s.db_buf := by
  unfold flush_to_db
  split_ifs <;> rfl

theorem flush_to_db_all_chunks (s : PState) (items : List String) (f : Bool)
    (st : ChatStatus) :
    (flush_to_db s items f st).all_chunks = s.all_chunks := by
  unfold flush_to_db
  split_ifs <;> rfl

theorem flush_to_db_queued (s : PState) (items : List String) (f : Bool)
    (st : ChatStatus) : (flush_to_db s items f st).queued = s.queued := by
  unfold flush_to_db
  split_ifs <;> rfl

theorem flush_to_db_redisList (s : PState) (items : List String) (f : Bool)
    (st : ChatStatus) :
    (flush_to_db s items f st).redisList = s.redisList := by
  unfold flush_to_db
  split_ifs <;> rfl

theorem flush_to_db_final_usage (s : PState) (items : List String) (f : Bool)
    (st : ChatStatus) :
    (flush_to_db s items f st).final_usage = s.final_usage := by
  unfold flush_to_db
  split_ifs <;> rfl

theorem flush_to_db_dbWrites_of_ne (s : PState) (items : List String)
    (f : Bool) (st : ChatStatus) (h : items ≠ []) :
    (flush_to_db s items f st).dbWrites
      = s.dbWrites ++
        [{ llm_response := if f then clean_response (String.join items)
                           else String.join items,
           updated_at_set := true,
           usageAndStatus := if f then
               match s.final_usage with
               | some u => some (u, st.val)
               | none => none
             else none }] := by
  unfold flush_to_db
  rw [if_neg (by simp [List.isEmpty_eq_true, h])]

theorem appendAndFlush_all_chunks (n m : Nat) (rok : Bool) (s : PState)
    (tx : String) :
    (appendAndFlush n m rok s tx).all_chunks = s.all_chunks ++ [tx] := by
  unfold appendAndFlush
  dsimp only
  split <;> split <;>
    simp [flush_to_redis_all_chunks, flush_to_db_all_chunks]

theorem appendAndFlush_queued (n m : Nat) (rok : Bool) (s : PState)
    (tx : String) :
    (appendAndFlush n m rok s tx).queued = s.queued ++ [tx] := by
  unfold appendAndFlush
  dsimp only
  split <;> split <;>
    simp [flush_to_redis_queued, flush_to_db_queued]

theorem appendAndFlush_final_usage (n m : Nat) (rok : Bool) (s : PState)
    (tx : String) :
    (appendAndFlush n m rok s tx).final_usage = s.final_usage := by
  unfold appendAndFlush
  dsimp only
  split <;> split <;>
    simp [flush_to_redis_final_usage, flush_to_db_final_usage]

theorem appendAndFlush_rconcat (n m : Nat) (s : PState) (tx : String) :
    (appendAndFlush n m true s tx).redisList
        ++ (appendAndFlush n m true s tx).redis_buf
      = s.redisList ++ s.redis_buf ++ [tx] := by
  unfold appendAndFlush
  dsimp only
  split <;> split <;>
    simp [flush_to_redis_concat, flush_to_redis_redis_buf,
      flush_to_db_redisList, flush_to_db_redis_buf, List.append_assoc]

theorem appendAndFlush_redisList_norok (n m : Nat) (s : PState) (tx : String) :
    (appendAndFlush n m false s tx).redisList = s.redisList := by
  unfold appendAndFlush
  dsimp only
  split <;> split <;>
    simp [flush_to_redis_norok, flush_to_db_redisList]

/-- The `continue` of a failed extraction: usage is still captured, nothing
else changes, the cancellation check is skipped. -/
theorem stepEvent_skip (n m : Nat) (rok : Bool) (s : PState) (c : StreamChunk)
    (probe : CancelProbe) (h : extract_chunk_text c = none) :
    stepEvent n m rok s (.chunkArrived c probe) = (usageUpdate s c, false) := by
  simp [stepEvent, h]

theorem stepEvent_all_chunks (n m : Nat) (rok : Bool) (s : PState)
    (e : LoopEvent) :
    (stepEvent n m rok s e).1.all_chunks
      = s.all_chunks ++
        (match eventText e with
         | none => []
         | some tx =>
           tx :: (if (stepEvent n m rok s e).2 then [INTERRUPTED_PLACEHOLDER]
                  else [])) := by
  cases e with
  | chunkArrived c probe =>
    cases hx : extract_chunk_text c with
    | none => simp [stepEvent, eventText, hx, usageUpdate_eq]
    | some tx =>
      cases hc : check_cancellation probe <;>
        simp [stepEvent, eventText, hx, hc, appendAndFlush_all_chunks,
          usageUpdate_eq]
  | stalled probe =>
    cases hc : check_cancellation probe <;>
      simp [stepEvent, eventText, hc, appendAndFlush_all_chunks]

theorem stepEvent_queued (n m : Nat) (rok : Bool) (s : PState)
    (e : LoopEvent) :
    (stepEvent n m rok s e).1.queued
      = s.queued ++
        (match eventText e with
         | none => []
         | some tx =>
           tx :: (if (stepEvent n m rok s e).2 then [INTERRUPTED_PLACEHOLDER]
                  else [])) := by
  cases e with
  | chunkArrived c probe =>
    cases hx : extract_chunk_text c with
    | none => simp [stepEvent, eventText, hx, usageUpdate_eq]
    | some tx =>
      cases hc : check_cancellation probe <;>
        simp [stepEvent, eventText, hx, hc, appendAndFlush_queued,
          usageUpdate_eq]
  | stalled probe =>
    cases hc : check_cancellation probe <;>
      simp [stepEvent, eventText, hc, appendAndFlush_queued]

theorem stepEvent_rconcat (n m : Nat) (s : PState) (e : LoopEvent) :
    (stepEvent n m true s e).1.redisList ++ (stepEvent n m true s e).1.redis_buf
      = s.redisList ++ s.redis_buf ++
        (match eventText e with | none => [] | some tx => [tx]) := by
  cases e with
  | chunkArrived c probe =>
    cases hx : extract_chunk_text c with
    | none => simp [stepEvent, eventText, hx, usageUpdate_eq]
    | some tx =>
      have hu1 : (usageUpdate s c).redisList = s.redisList := by
        rw [usageUpdate_eq]
      have hu2 : (usageUpdate s c).redis_buf = s.redis_buf := by
        rw [usageUpdate_eq]
      cases hc : check_cancellation probe <;>
        simpa [stepEvent, eventText, hx, hc, hu1, hu2] using
          (by rw [appendAndFlush_rconcat, hu1, hu2] :
            (appendAndFlush n m true (usageUpdate s c) tx).redisList
                ++ (appendAndFlush n m true (usageUpdate s c) tx).redis_buf
              = s.redisList ++ s.redis_buf ++ [tx])
  | stalled probe =>
    cases hc : check_cancellation probe <;>
      simp [stepEvent, eventText, hc, appendAndFlush_rconcat]

theorem stepEvent_redisList_norok (n m : Nat) (s : PState) (e : LoopEvent) :
    (stepEvent n m false s e).1.redisList = s.redisList := by
  cases e with
  | chunkArrived c probe =>
    cases hx : extract_chunk_text c with
    | none =>
      have hu : (usageUpdate s c).redisList = s.redisList := by
        rw [usageUpdate_eq]
      simp [stepEvent, hx, hu]
    | some tx =>
      have hu : (usageUpdate s c).redisList = s.redisList := by
        rw [usageUpdate_eq]
      cases hc : check_cancellation probe <;>
        simp [stepEvent, hx, hc, appendAndFlush_redisList_norok, hu]
  | stalled probe =>
    cases hc : check_cancellation probe <;>
      simp [stepEvent, hc, appendAndFlush_redisList_norok]

theorem ev_nonterm {e : LoopEvent} {tx : String}
    (he : eventTextNonTerminal e = true) (h : eventText e = some tx) :
    isTermSent tx = false := by
  unfold eventTextNonTerminal at he
  rw [h] at he
  simpa using he

theorem stepEvent_none_break (n m : Nat) (rok : Bool) (s : PState)
    (e : LoopEvent) (h : eventText e = none) :
    (stepEvent n m rok s e).2 = false := by
  cases e with
  | chunkArrived c probe =>
    have hx : extract_chunk_text c = none := h
    simp [stepEvent, hx]
  | stalled probe => simp [eventText] at h

theorem isTermSent_interrupt : isTermSent INTERRUPTED_PLACEHOLDER = true := by
  decide

theorem terminalFor_isTermSent (st : ChatStatus) :
    isTermSent (terminalFor st) = true := by
  cases st <;> decide

theorem producerStatus_ne_active (b : Bool) (t : Terminator) :
    producerStatus b t ≠ .active := by
  cases b <;> cases t <;> simp [producerStatus]

/-- Counting terminal sentinels through the producer loop: as long as no
iteration text is itself a terminal literal, the loop keeps `all_chunks`,
the channel and the Buffer-plus-pending-buffer free of terminal sentinels
until the break, and the break adds exactly one (the mid-loop INTERRUPTED). -/
theorem runLoop_counts (n m : Nat) (events : List LoopEvent) :
    ∀ s : PState, (∀ e ∈ events, eventTextNonTerminal e = true) →
      s.all_chunks.countP isTermSent = 0 → s.queued.countP isTermSent = 0 →
      (s.redisList ++ s.redis_buf).countP isTermSent = 0 →
      (((runLoop n m true s events).2 = false →
          (runLoop n m true s events).1.all_chunks.countP isTermSent = 0 ∧
          (runLoop n m true s events).1.queued.countP isTermSent = 0) ∧
       ((runLoop n m true s events).2 = true →
          (runLoop n m true s events).1.all_chunks.countP isTermSent = 1 ∧
          (runLoop n m true s events).1.queued.countP isTermSent = 1) ∧
       ((runLoop n m true s events).1.redisList ++
          (runLoop n m true s events).1.redis_buf).countP isTermSent = 0) := by
  induction events with
  | nil =>
    intro s _ hA hQ hR
    refine ⟨fun _ => ⟨hA, hQ⟩, fun h => ?_, hR⟩
    simp [runLoop] at h
  | cons e es ih =>
    intro s hev hA hQ hR
    have he : eventTextNonTerminal e = true := hev e (by simp)
    have hes : ∀ e' ∈ es, eventTextNonTerminal e' = true :=
      fun e' h' => hev e' (by simp [h'])
    have hac := stepEvent_all_chunks n m true s e
    have hq := stepEvent_queued n m true s e
    have hrc := stepEvent_rconcat n m s e
    rcases hstep : stepEvent n m true s e with ⟨s', brk⟩
    rw [hstep] at hac hq hrc
    dsimp only at hac hq hrc
    cases brk with
    | true =>
      have hrun : runLoop n m true s (e :: es) = (s', true) := by
        simp [runLoop, hstep]
      cases htx : eventText e with
      | none =>
        have hnb := stepEvent_none_break n m true s e htx
        rw [hstep] at hnb
        simp at hnb
      | some tx =>
        have htxn : isTermSent tx = false := ev_nonterm he htx
        rw [htx] at hac hq hrc
        dsimp only at hac hq hrc
        simp only [if_true] at hac hq
        rw [hrun]
        dsimp only
        have h2 : List.countP isTermSent [tx, INTERRUPTED_PLACEHOLDER] = 1 := by
          simp [List.countP_cons, htxn, isTermSent_interrupt]
        have h1 : List.countP isTermSent [tx] = 0 := by
          simp [List.countP_cons, htxn]
        refine ⟨fun h => by simp at h, fun _ => ?_, ?_⟩
        · constructor
          · rw [hac, List.countP_append]
            omega
          · rw [hq, List.countP_append]
            omega
        · rw [hrc, List.countP_append]
          omega
    | false =>
      have hrun : runLoop n m true s (e :: es) = runLoop n m true s' es := by
        simp [runLoop, hstep]
      have hA' : s'.all_chunks.countP isTermSent = 0 := by
        cases htx : eventText e with
        | none =>
          rw [htx] at hac
          dsimp only at hac
          rw [hac, List.countP_append]
          simp [hA]
        | some tx =>
          have htxn : isTermSent tx = false := ev_nonterm he htx
          rw [htx] at hac
          simp at hac
          have h1 : List.countP isTermSent [tx] = 0 := by
            simp [List.countP_cons, htxn]
          rw [hac, List.countP_append]
          omega
      have hQ' : s'.queued.countP isTermSent = 0 := by
        cases htx : eventText e with
        | none =>
          rw [htx] at hq
          dsimp only at hq
          rw [hq, List.countP_append]
          simp [hQ]
        | some tx =>
          have htxn : isTermSent tx = false := ev_nonterm he htx
          rw [htx] at hq
          simp at hq
          have h1 : List.countP isTermSent [tx] = 0 := by
            simp [List.countP_cons, htxn]
          rw [hq, List.countP_append]
          omega
      have hR' : (s'.redisList ++ s'.redis_buf).countP isTermSent = 0 := by
        cases htx : eventText e with
        | none =>
          rw [htx] at hrc
          dsimp only at hrc
          rw [hrc, List.countP_append] at *
          simpa using hR
        | some tx =>
          have htxn : isTermSent tx = false := ev_nonterm he htx
          rw [htx] at hrc
          dsimp only at hrc
          have h1 : List.countP isTermSent [tx] = 0 := by
            simp [List.countP_cons, htxn]
          rw [hrc, List.countP_append]
          omega
      rw [hrun]
      exact ih s' hes hA' hQ' hR'

/-! ## Field lemmas for the producer finalization -/

theorem producer_finalize_all_chunks (rok sok : Bool) (s : PState)
    (broke : Bool) (t : Terminator) :
    (producer_finalize rok sok s broke t).all_chunks
      = (if ¬ broke ∧ (t = .totalTimeout ∨ t = .upstreamErr)
         then s.all_chunks ++ [FAILED_PLACEHOLDER] else s.all_chunks)
        ++ [terminalFor (producerStatus broke t)] := by
  unfold producer_finalize
  dsimp only
  split <;> simp [flush_to_redis_all_chunks, flush_to_db_all_chunks]

theorem producer_finalize_queued (rok sok : Bool) (s : PState) (broke : Bool)
    (t : Terminator) :
    (producer_finalize rok sok s broke t).queued
      = (if ¬ broke ∧ (t = .totalTimeout ∨ t = .upstreamErr)
         then s.queued ++ [FAILED_PLACEHOLDER] else s.queued)
        ++ [terminalFor (producerStatus broke t)] := by
  unfold producer_finalize
  dsimp only
  split <;> simp [flush_to_redis_queued, flush_to_db_queued]

theorem producer_finalize_buffer (sok : Bool) (s : PState) (broke : Bool)
    (t : Terminator) :
    (producer_finalize true sok s broke t).buffer
      = s.redisList ++ s.redis_buf ++ [terminalFor (producerStatus broke t)] := by
  unfold producer_finalize
  dsimp only
  split <;>
    simp [flush_to_db_redisList, flush_to_redis_concat, List.append_assoc]

theorem producer_finalize_buffer_norok (sok : Bool) (s : PState) (broke : Bool)
    (t : Terminator) :
    (producer_finalize false sok s broke t).buffer = s.redisList := by
  unfold producer_finalize
  dsimp only
  split <;> simp [flush_to_db_redisList, flush_to_redis_norok]

theorem producer_finalize_dbWrites (rok sok : Bool) (s : PState) (broke : Bool)
    (t : Terminator) :
    (producer_finalize rok sok s broke t).dbWrites
      = s.dbWrites ++
        [{ llm_response := clean_response (String.join
             ((if ¬ broke ∧ (t = .totalTimeout ∨ t = .upstreamErr)
               then s.all_chunks ++ [FAILED_PLACEHOLDER] else s.all_chunks)
              ++ [terminalFor (producerStatus broke t)])),
           updated_at_set := true,
           usageAndStatus := match s.final_usage with
             | some u => some (u, (producerStatus broke t).val)
             | none => none }] := by
  unfold producer_finalize
  dsimp only
  split <;>
    rw [flush_to_db_dbWrites_of_ne _ _ _ _ (by
      simp [flush_to_redis_all_chunks])] <;>
    simp [flush_to_redis_all_chunks, flush_to_redis_dbWrites,
      flush_to_redis_final_usage]

theorem producer_finalize_status_field (rok sok : Bool) (s : PState)
    (broke : Bool) (t : Terminator) :
    (producer_finalize rok sok s broke t).status = producerStatus broke t := by
  unfold producer_finalize
  dsimp only

theorem producer_finalize_break_field (rok sok : Bool) (s : PState)
    (broke : Bool) (t : Terminator) :
    (producer_finalize rok sok s broke t).interruptedBreak = broke := by
  unfold producer_finalize
  dsimp only

theorem producer_finalize_redisStatusSet (rok sok : Bool) (s : PState)
    (broke : Bool) (t : Terminator) :
    (producer_finalize rok sok s broke t).redisStatusSet
      = (if sok then some (producerStatus broke t) else none) := by
  unfold producer_finalize
  dsimp only

theorem producer_finalize_raised (rok sok : Bool) (s : PState) (broke : Bool)
    (t : Terminator) :
    (producer_finalize rok sok s broke t).raised = !sok := by
  unfold producer_finalize
  dsimp only

/-! ## Counterexamples and failing-input evaluations -/

/-- C2, counterexample.  The claim "the stored `llm_response` contains no
occurrence of any sentinel literal, for every possible sequence of upstream
chunk texts" is false: `clean_response` is a single `re.sub` pass and the
removal of an occurrence can create a new one.  With the single upstream
chunk text `"<:<al<:<alive>:>ive>:>"` (and end-of-stream), the final DB
write stores exactly the HEARTBEAT literal `"<:<alive>:>"`. -/
theorem C2_counterexample :
    (producer_model 25 150 true true
        [.chunkArrived ⟨[⟨some "<:<al<:<alive>:>ive>:>"⟩], none⟩
          (.redisVal (some .active))] .eos).dbWrites.getLast?
      = some ⟨"<:<alive>:>", true, none⟩ ∧
    hasSub hbL ("<:<alive>:>").toList = true ∧
    sentinelFree "<:<alive>:>" = false := by decide

/-- C3, evaluation at the failing input.  Upstream yields one chunk `"a"`
carrying no usage, then end-of-stream: the final UPDATE carries neither the
usage counters nor `status` (`usageAndStatus = none`, so the Chat row keeps
`status = 'active'`), while `set_status` writes `completed` to Redis. -/
theorem C3_code_eval :
    (producer_model 25 150 true true
        [.chunkArrived ⟨[⟨some "a"⟩], none⟩ (.redisVal (some .active))]
        .eos).dbWrites = [⟨"a", true, none⟩] ∧
    (producer_model 25 150 true true
        [.chunkArrived ⟨[⟨some "a"⟩], none⟩ (.redisVal (some .active))]
        .eos).redisStatusSet = some .completed := by decide

/-- C4, evaluation at the failing input.  With `Last-Event-ID = 0` the first
cache fetch is `LRANGE buffer -1 -1`: on a Buffer `["a","b","c"]` it returns
only the LAST element, not the Buffer from the beginning. -/
theorem C4_code_eval :
    reconnect_first_slice ["a", "b", "c"] 0 = ["c"] ∧
    reconnect_first_slice ["a", "b", "c"] 0 ≠ ["a", "b", "c"] ∧
    reconnect_first_slice ["a", "b", "c"] 2 = ["c"] := by decide

/-- C5, counterexample.  When the interrupt is observed after the first
chunk, the INTERRUPTED sentinel is appended once at detection (line 264-265)
and once more in `finally` (line 290-293): `all_chunks` and the channel
receive TWO terminal sentinels, not exactly one. -/
theorem C5_counterexample :
    ((producer_model 25 150 true true
        [.chunkArrived ⟨[⟨some "a"⟩], none⟩ (.redisVal (some .interrupted))]
        .eos).all_chunks.countP isTermSent = 2) ∧
    ((producer_model 25 150 true true
        [.chunkArrived ⟨[⟨some "a"⟩], none⟩ (.redisVal (some .interrupted))]
        .eos).queued.countP isTermSent = 2) := by decide

/-- C6, counterexample.  A stall makes the producer write the raw HEARTBEAT
placeholder into the Chat row by a partial flush (here `DB_FLUSH_EVERY_M`
= 1 for brevity), and the DB-fallback path of the replayer forwards that
text to the client unstripped: the delivered `chunk` frame's data IS the
sentinel literal. -/
theorem C6_counterexample :
    ((producer_model 25 1 true true [.stalled (.redisVal (some .active))]
        .eos).dbWrites.head? = some ⟨"<:<alive>:>", true, none⟩) ∧
    reconnect_db_frames (-1) "<:<alive>:>" 0 = [.chunkF (-1) "<:<alive>:>"] ∧
    sentinelFree "<:<alive>:>" = false := by decide

/-- C7, counterexample.  `stop_chat` writes the terminal status
`interrupted` to both stores; a producer finalization running afterwards
(status `completed`, usage captured) replaces that terminal status with a
different one in both stores. -/
theorem C7_counterexample :
    applyOp ⟨some "active", some "active"⟩ .stopReq
      = ⟨some "interrupted", some "interrupted"⟩ ∧
    applyOp (applyOp ⟨some "active", some "active"⟩ .stopReq)
        (.finalize false .eos true)
      = ⟨some "completed", some "completed"⟩ := by decide

/-- C8, counterexample.  The final `set_status` of the producer is not
wrapped in try/except: when that Redis write fails the producer coroutine
ends with an uncaught exception instead of logging and swallowing it. -/
theorem C8_counterexample :
    (producer_model 25 150 true false [] .eos).raised = true := by decide

/-- C9, counterexample.  A chunk whose `delta.content` is `None` is NOT
skipped: `extract_chunk_text` coerces `None` to `""` (the `or ""`), and the
empty string is appended to `redis_buf`, `db_buf`, `all_chunks` and the
channel, counting toward the flush thresholds. -/
theorem C9_counterexample :
    extract_chunk_text ⟨[⟨none⟩], none⟩ = some "" ∧
    (stepEvent 25 150 true initPState
        (.chunkArrived ⟨[⟨none⟩], none⟩ (.redisVal (some .active)))).1.redis_buf
      = [""] ∧
    (stepEvent 25 150 true initPState
        (.chunkArrived ⟨[⟨none⟩], none⟩ (.redisVal (some .active)))).1.db_buf
      = [""] ∧
    (stepEvent 25 150 true initPState
        (.chunkArrived ⟨[⟨none⟩], none⟩ (.redisVal (some .active)))).1.all_chunks
      = [""] ∧
    (stepEvent 25 150 true initPState
        (.chunkArrived ⟨[⟨none⟩], none⟩ (.redisVal (some .active)))).1.queued
      = [""] := by decide

/-! ## C1: the `POST /chat` dispatch table -/

/-- C1.  The response kind of `POST /chat` matches the spec's dispatch
table: a reconnection (chat_uuid present) to a row with status `active`
returns the event-stream of the Reconnect Replayer (with the header's
`Last-Event-ID`, absent treated as 0); a reconnection to a terminal row
returns JSON with the stored text and status; a reconnection to an unknown
uuid raises 404; and a new chat with `stream = true` returns the event
stream of the SSE Emitter fed by a spawned producer for the new row. -/
theorem C1_dispatch (req : ChatRequestM) (rowLookup : Option ChatRow)
    (lei : Option Nat) (llmText : Option String) (db : DBModel)
    (redis : RedisModel) (ftid fuuid : Nat) :
    (req.chat_uuid.isSome = true →
      (rowLookup = none →
        (start_chat req rowLookup lei llmText db redis ftid fuuid).2.2
          = .httpError 404) ∧
      (∀ row, rowLookup = some row →
        (row.status = "active" →
          (start_chat req rowLookup lei llmText db redis ftid fuuid).2.2
            = .sseReconnect (lei.getD 0)) ∧
        (row.status = "completed" ∨ row.status = "interrupted" ∨
            row.status = "failed" →
          (start_chat req rowLookup lei llmText db redis ftid fuuid).2.2
            = .jsonTerminal row.llm_response row.status))) ∧
    (req.chat_uuid = none → req.stream = true →
      (start_chat req rowLookup lei llmText db redis ftid fuuid).2.2
        = .sseNew fuuid) := by
  constructor
  · intro hsome
    obtain ⟨u, hu⟩ := Option.isSome_iff_exists.mp hsome
    constructor
    · intro hrow
      simp [start_chat, hu, hrow]
    · intro row hrow
      constructor
      · intro hact
        simp [start_chat, hu, hrow, ChatStatus.val, hact]
      · intro hterm
        have hne : row.status ≠ ChatStatus.active.val := by
          rcases hterm with h | h | h <;> simp [ChatStatus.val, h]
        simp [start_chat, hu, hrow, hne]
  · intro hnone hstream
    cases hthread : req.thread_id <;>
      simp [start_chat, hnone, hstream, save_chat, hthread]

/-- C1, witness: a reconnection to a row with status `active` and
`Last-Event-ID: 3`, and a fresh streaming chat. -/
theorem C1_dispatch_witness :
    (start_chat ⟨"p", true, none, some 5⟩
        (some ⟨5, some 1, "hi", "active", "p"⟩) (some 3) none ⟨[], []⟩
        ⟨fun _ => none⟩ 7 9).2.2 = .sseReconnect 3 ∧
    (start_chat ⟨"p", true, none, none⟩ none none none ⟨[], []⟩
        ⟨fun _ => none⟩ 7 9).2.2 = .sseNew 9 :=
  ⟨(((C1_dispatch ⟨"p", true, none, some 5⟩
        (some ⟨5, some 1, "hi", "active", "p"⟩) (some 3) none ⟨[], []⟩
        ⟨fun _ => none⟩ 7 9).1 rfl).2 ⟨5, some 1, "hi", "active", "p"⟩ rfl).1 rfl,
   (C1_dispatch ⟨"p", true, none, none⟩ none none none ⟨[], []⟩
        ⟨fun _ => none⟩ 7 9).2 rfl rfl⟩

/-! ## C10: effects committed before the streaming response is returned -/

/-- C10.  On the streaming-new-chat path, the value `start_chat` returns
already carries all the effects performed before the `StreamingResponse` is
handed back (and hence before any SSE byte): the Chat row is committed with
status `active`, the freshly minted uuid (unique in the table) and a
non-null `thread_id` — a new `ChatThread` row being created in the same
transaction when no `thread_id` was supplied — and the Redis Status Store
entry of that uuid equals `active`. -/
theorem C10_stream_setup (db : DBModel) (redis : RedisModel)
    (req : ChatRequestM) (ftid fuuid : Nat)
    (hnew : req.chat_uuid = none) (hstream : req.stream = true)
    (hfresh : ∀ r ∈ db.chats, r.uuid ≠ fuuid) :
    (start_chat req none none none db redis ftid fuuid).2.2 = .sseNew fuuid ∧
    (∃ row, row ∈ (start_chat req none none none db redis ftid fuuid).1.chats ∧
       row.uuid = fuuid ∧ row.status = "active" ∧
       row.thread_id.isSome = true ∧ row.llm_response = "" ∧
       (req.thread_id = none →
          (ftid, req.user_prompt.take 100)
              ∈ (start_chat req none none none db redis ftid fuuid).1.threads ∧
            row.thread_id = some ftid) ∧
       (∀ t, req.thread_id = some t → row.thread_id = some t)) ∧
    ((start_chat req none none none db redis ftid fuuid).1.chats.countP
        (fun r => r.uuid == fuuid) = 1) ∧
    (start_chat req none none none db redis ftid fuuid).2.1.statusOf fuuid
      = some "active" := by
  have hcount : db.chats.countP (fun r => r.uuid == fuuid) = 0 := by
    rw [List.countP_eq_zero]
    intro r hr
    simpa using hfresh r hr
  cases hthread : req.thread_id with
  | none =>
    refine ⟨by simp [start_chat, hnew, hstream, save_chat, hthread], ?_, ?_, ?_⟩
    · refine ⟨⟨fuuid, some ftid, "", "active", req.user_prompt⟩, ?_⟩
      simp [start_chat, hnew, hstream, save_chat, hthread, ChatStatus.val]
    · simp [start_chat, hnew, hstream, save_chat, hthread,
        List.countP_append, hcount, List.countP_cons]
    · simp [start_chat, hnew, hstream, save_chat, hthread, set_status,
        ChatStatus.val]
  | some t0 =>
    refine ⟨by simp [start_chat, hnew, hstream, save_chat, hthread], ?_, ?_, ?_⟩
    · refine ⟨⟨fuuid, some t0, "", "active", req.user_prompt⟩, ?_⟩
      simp [start_chat, hnew, hstream, save_chat, hthread, ChatStatus.val]
    · simp [start_chat, hnew, hstream, save_chat, hthread,
        List.countP_append, hcount, List.countP_cons]
    · simp [start_chat, hnew, hstream, save_chat, hthread, set_status,
        ChatStatus.val]

/-- C10, witness: fresh streaming chat on an empty database. -/
theorem C10_stream_setup_witness :
    (start_chat ⟨"hello", true, none, none⟩ none none none ⟨[], []⟩
        ⟨fun _ => none⟩ 7 9).2.2 = .sseNew 9 ∧
    (∃ row, row ∈ (start_chat ⟨"hello", true, none, none⟩ none none none
          ⟨[], []⟩ ⟨fun _ => none⟩ 7 9).1.chats ∧
       row.uuid = 9 ∧ row.status = "active" ∧
       row.thread_id.isSome = true ∧ row.llm_response = "" ∧
       ((⟨"hello", true, none, none⟩ : ChatRequestM).thread_id = none →
          (7, ("hello" : String).take 100)
              ∈ (start_chat ⟨"hello", true, none, none⟩ none none none
                  ⟨[], []⟩ ⟨fun _ => none⟩ 7 9).1.threads ∧
            row.thread_id = some 7) ∧
       (∀ t, (⟨"hello", true, none, none⟩ : ChatRequestM).thread_id = some t →
          row.thread_id = some t)) ∧
    ((start_chat ⟨"hello", true, none, none⟩ none none none ⟨[], []⟩
        ⟨fun _ => none⟩ 7 9).1.chats.countP (fun r => r.uuid == 9) = 1) ∧
    (start_chat ⟨"hello", true, none, none⟩ none none none ⟨[], []⟩
        ⟨fun _ => none⟩ 7 9).2.1.statusOf 9 = some "active" :=
  C10_stream_setup ⟨[], []⟩ ⟨fun _ => none⟩ ⟨"hello", true, none, none⟩ 7 9
    rfl rfl (by simp)

/-! ## Status monotonicity (C7) -/

theorem producerStatus_val_ne_active (b : Bool) (t : Terminator) :
    (producerStatus b t).val ≠ "active" := by
  cases b <;> cases t <;> decide

theorem stop_chat_fixed (s : StoreState)
    (h1 : s.redis ≠ some ChatStatus.active.val) : stop_chat s = s := by
  unfold stop_chat
  cases hr : s.redis with
  | none => rfl
  | some st =>
    dsimp only
    rw [if_pos]
    intro he
    exact h1 (by rw [hr, he])

theorem applyOp_preserves (s : StoreState) (op : CoreOp)
    (h1 : s.redis ≠ some ChatStatus.active.val)
    (h2 : s.db ≠ some ChatStatus.active.val) :
    (applyOp s op).redis ≠ some ChatStatus.active.val ∧
    (applyOp s op).db ≠ some ChatStatus.active.val := by
  cases op with
  | stopReq =>
    show (stop_chat s).redis ≠ _ ∧ (stop_chat s).db ≠ _
    rw [stop_chat_fixed s h1]
    exact ⟨h1, h2⟩
  | finalize b t u =>
    show (producer_finalize_status s (producerStatus b t) u).redis ≠ _ ∧
         (producer_finalize_status s (producerStatus b t) u).db ≠ _
    unfold producer_finalize_status
    constructor
    · intro he
      exact producerStatus_val_ne_active b t (by simpa using he)
    · cases u with
      | false => simpa using h2
      | true =>
        cases hd : s.db with
        | none => simp
        | some v =>
          simp only [if_pos rfl]
          intro he
          exact producerStatus_val_ne_active b t (by simpa [hd] using he)

theorem applyOps_preserves (ops : List CoreOp) :
    ∀ s : StoreState, s.redis ≠ some ChatStatus.active.val →
      s.db ≠ some ChatStatus.active.val →
      (applyOps s ops).redis ≠ some ChatStatus.active.val ∧
      (applyOps s ops).db ≠ some ChatStatus.active.val := by
  induction ops with
  | nil => intro s h1 h2; exact ⟨h1, h2⟩
  | cons op ops ih =>
    intro s h1 h2
    have h := applyOp_preserves s op h1 h2
    exact ih (applyOp s op) h.1 h.2

/-! ## Claim theorems: C5, C7, C8, C9 (amended) -/

/-- C5, amended.  With no upstream text equal to a terminal sentinel
literal: the Buffer receives EXACTLY ONE terminal sentinel and it is the
last entry, on every path; but on the channel and in `all_chunks` the
terminal sentinel appears once on the completed and failed-at-open paths and
TWICE on the interrupt, total-timeout and upstream-exception paths (once
when the condition is detected, once more in `finally`). -/
theorem C5_amended (n m : Nat) (sok : Bool) (events : List LoopEvent)
    (t : Terminator) (hev : ∀ e ∈ events, eventTextNonTerminal e = true) :
    (producer_model n m true sok events t).buffer.getLast?
      = some (terminalFor (producer_model n m true sok events t).status) ∧
    (producer_model n m true sok events t).buffer.countP isTermSent = 1 ∧
    ((producer_model n m true sok events t).all_chunks.countP isTermSent
      = if (producer_model n m true sok events t).interruptedBreak
            ∨ t = .totalTimeout ∨ t = .upstreamErr then 2 else 1) ∧
    ((producer_model n m true sok events t).queued.countP isTermSent
      = if (producer_model n m true sok events t).interruptedBreak
            ∨ t = .totalTimeout ∨ t = .upstreamErr then 2 else 1) := by
  unfold producer_model
  by_cases ht : t = .streamNone
  · subst ht
    rw [if_pos rfl]
    dsimp only
    rw [producer_finalize_buffer, producer_finalize_status_field,
      producer_finalize_all_chunks, producer_finalize_queued,
      producer_finalize_break_field]
    refine ⟨?_, ?_, ?_, ?_⟩ <;>
      simp [initPState, List.countP_cons, List.countP_append,
        terminalFor_isTermSent]
  · rw [if_neg ht]
    have hc := runLoop_counts n m events initPState hev (by simp [initPState])
      (by simp [initPState]) (by simp [initPState])
    rcases hr : runLoop n m true initPState events with ⟨sL, brk⟩
    rw [hr] at hc
    dsimp only at hc
    obtain ⟨hc0, hc1, hcR⟩ := hc
    dsimp only
    rw [producer_finalize_buffer, producer_finalize_status_field,
      producer_finalize_all_chunks, producer_finalize_queued,
      producer_finalize_break_field]
    have hT : List.countP isTermSent [terminalFor (producerStatus brk t)] = 1 := by
      simp [List.countP_cons, terminalFor_isTermSent]
    have hF : List.countP isTermSent [FAILED_PLACEHOLDER] = 1 := by decide
    refine ⟨List.getLast?_concat _, ?_, ?_, ?_⟩
    · rw [List.countP_append]
      omega
    · cases brk with
      | true =>
        obtain ⟨ha1, _⟩ := hc1 rfl
        rw [if_neg (by simp)]
        rw [if_pos (by simp)]
        rw [List.countP_append]
        omega
      | false =>
        obtain ⟨ha0, _⟩ := hc0 rfl
        by_cases hterr : t = .totalTimeout ∨ t = .upstreamErr
        · rw [if_pos (by simpa using hterr), if_pos (by simpa using hterr)]
          rw [List.countP_append, List.countP_append]
          omega
        · rw [if_neg (by simpa using hterr), if_neg (by simpa using hterr)]
          rw [List.countP_append]
          omega
    · cases brk with
      | true =>
        obtain ⟨_, hq1⟩ := hc1 rfl
        rw [if_neg (by simp)]
        rw [if_pos (by simp)]
        rw [List.countP_append]
        omega
      | false =>
        obtain ⟨_, hq0⟩ := hc0 rfl
        by_cases hterr : t = .totalTimeout ∨ t = .upstreamErr
        · rw [if_pos (by simpa using hterr), if_pos (by simpa using hterr)]
          rw [List.countP_append, List.countP_append]
          omega
        · rw [if_neg (by simpa using hterr), if_neg (by simpa using hterr)]
          rw [List.countP_append]
          omega

/-- C5, witness: one text chunk then end-of-stream. -/
theorem C5_amended_witness :
    (producer_model 25 150 true true
        [.chunkArrived ⟨[⟨some "a"⟩], none⟩ (.redisVal (some .active))]
        .eos).buffer.getLast?
      = some (terminalFor (producer_model 25 150 true true
          [.chunkArrived ⟨[⟨some "a"⟩], none⟩ (.redisVal (some .active))]
          .eos).status) ∧
    (producer_model 25 150 true true
        [.chunkArrived ⟨[⟨some "a"⟩], none⟩ (.redisVal (some .active))]
        .eos).buffer.countP isTermSent = 1 ∧
    ((producer_model 25 150 true true
        [.chunkArrived ⟨[⟨some "a"⟩], none⟩ (.redisVal (some .active))]
        .eos).all_chunks.countP isTermSent
      = if (producer_model 25 150 true true
            [.chunkArrived ⟨[⟨some "a"⟩], none⟩ (.redisVal (some .active))]
            .eos).interruptedBreak
            ∨ Terminator.eos = .totalTimeout ∨ Terminator.eos = .upstreamErr
        then 2 else 1) ∧
    ((producer_model 25 150 true true
        [.chunkArrived ⟨[⟨some "a"⟩], none⟩ (.redisVal (some .active))]
        .eos).queued.countP isTermSent
      = if (producer_model 25 150 true true
            [.chunkArrived ⟨[⟨some "a"⟩], none⟩ (.redisVal (some .active))]
            .eos).interruptedBreak
            ∨ Terminator.eos = .totalTimeout ∨ Terminator.eos = .upstreamErr
        then 2 else 1) :=
  C5_amended 25 150 true
    [.chunkArrived ⟨[⟨some "a"⟩], none⟩ (.redisVal (some .active))] .eos
    (by decide)

/-- C7, amended.  Statuses never return to `active`: starting from any state
where neither store holds `active`, any sequence of core operations (stop
requests and producer finalizations) leaves both stores different from
`active`; the stop endpoint never modifies a non-active state; producer
finalization writes its computed status unconditionally — that status is
never `active`, but it MAY replace a terminal status written earlier by the
stop endpoint with a different terminal status (see the counterexample). -/
theorem C7_amended (s : StoreState) (ops : List CoreOp) (b u : Bool)
    (t : Terminator)
    (h1 : s.redis ≠ some ChatStatus.active.val)
    (h2 : s.db ≠ some ChatStatus.active.val) :
    ((applyOps s ops).redis ≠ some ChatStatus.active.val ∧
     (applyOps s ops).db ≠ some ChatStatus.active.val) ∧
    stop_chat s = s ∧
    (applyOp s (.finalize b t u)).redis = some (producerStatus b t).val ∧
    producerStatus b t ≠ .active := by
  refine ⟨applyOps_preserves ops s h1 h2, stop_chat_fixed s h1, rfl,
    producerStatus_ne_active b t⟩

/-- C7, witness: a `completed` pair of stores, a stop then a finalization. -/
theorem C7_amended_witness :
    ((applyOps ⟨some "completed", some "completed"⟩
        [.stopReq, .finalize false .eos true]).redis
        ≠ some ChatStatus.active.val ∧
     (applyOps ⟨some "completed", some "completed"⟩
        [.stopReq, .finalize false .eos true]).db
        ≠ some ChatStatus.active.val) ∧
    stop_chat ⟨some "completed", some "completed"⟩
      = ⟨some "completed", some "completed"⟩ ∧
    (applyOp ⟨some "completed", some "completed"⟩
        (.finalize false .eos true)).redis
      = some (producerStatus false .eos).val ∧
    producerStatus false .eos ≠ .active :=
  C7_amended ⟨some "completed", some "completed"⟩
    [.stopReq, .finalize false .eos true] false true .eos
    (by decide) (by decide)

theorem runLoop_redisList_norok (n m : Nat) (events : List LoopEvent) :
    ∀ s : PState, (runLoop n m false s events).1.redisList = s.redisList := by
  induction events with
  | nil => intro s; rfl
  | cons e es ih =>
    intro s
    have hstep' := stepEvent_redisList_norok n m s e
    rcases hstep : stepEvent n m false s e with ⟨s', brk⟩
    rw [hstep] at hstep'
    dsimp only at hstep'
    cases brk with
    | true => simpa [runLoop, hstep] using hstep'
    | false =>
      have : runLoop n m false s (e :: es) = runLoop n m false s' es := by
        simp [runLoop, hstep]
      rw [this, ih s', hstep']

/-- C8, amended.  Buffer flushes are best-effort: when every Redis pipeline
fails, nothing is raised, the Buffer simply stays empty and the producer
still issues its final DB write; a failure to READ the status during the
interrupt check falls back to comparing `Chat.status` from the DB.  (But a
failure of the final `set_status` write is NOT swallowed — see the
counterexample.) -/
theorem C8_amended (n m : Nat) (events : List LoopEvent) (t : Terminator) :
    (producer_model n m false true events t).raised = false ∧
    (producer_model n m false true events t).buffer = [] ∧
    (producer_model n m false true events t).dbWrites.getLast?.isSome = true ∧
    ∀ dbS : Option String,
      check_cancellation (.redisDown dbS) = decide (dbS = some "interrupted") := by
  unfold producer_model
  refine ⟨?_, ?_, ?_, fun dbS => rfl⟩
  · rw [producer_finalize_raised]
    rfl
  · rw [producer_finalize_buffer_norok]
    by_cases ht : t = .streamNone
    · simp [ht, initPState]
    · rw [if_neg ht, runLoop_redisList_norok]
      rfl
  · rw [producer_finalize_dbWrites, List.getLast?_concat]
    rfl

/-- C9, amended.  On a received chunk the producer extracts
`delta.content or ""`: a `None` content (and an empty-string content) is
coerced to `""` and KEPT — appended to `redis_buf`, `db_buf`, `all_chunks`
and the channel, counting toward the flush thresholds — while only a chunk
whose extraction fails (missing/empty `choices`) is skipped entirely; usage
carried by a chunk is captured for the final write in both cases. -/
theorem C9_amended (n m : Nat) (rok : Bool) (s : PState) (c c0 : StreamChunk)
    (probe : CancelProbe) (d : DeltaMsg) (rest : List DeltaMsg)
    (hch : c.choices = d :: rest) (hnc : check_cancellation probe = false)
    (hch0 : c0.choices = []) :
    extract_chunk_text c = some (d.content.getD "") ∧
    stepEvent n m rok s (.chunkArrived c probe)
      = (appendAndFlush n m rok (usageUpdate s c) (d.content.getD ""), false) ∧
    (appendAndFlush n m rok (usageUpdate s c) (d.content.getD "")).all_chunks
      = s.all_chunks ++ [d.content.getD ""] ∧
    (appendAndFlush n m rok (usageUpdate s c) (d.content.getD "")).queued
      = s.queued ++ [d.content.getD ""] ∧
    (rok = true →
      (appendAndFlush n m rok (usageUpdate s c) (d.content.getD "")).redisList
          ++ (appendAndFlush n m rok (usageUpdate s c)
              (d.content.getD "")).redis_buf
        = s.redisList ++ s.redis_buf ++ [d.content.getD ""]) ∧
    (usageUpdate s c).final_usage
      = (match c.usage with | some u => some u | none => s.final_usage) ∧
    stepEvent n m rok s (.chunkArrived c0 probe) = (usageUpdate s c0, false) := by
  have hx : extract_chunk_text c = some (d.content.getD "") := by
    simp [extract_chunk_text, hch]
  have hx0 : extract_chunk_text c0 = none := by
    simp [extract_chunk_text, hch0]
  refine ⟨hx, ?_, ?_, ?_, ?_, ?_, stepEvent_skip n m rok s c0 probe hx0⟩
  · simp [stepEvent, hx, hnc]
  · rw [appendAndFlush_all_chunks, usageUpdate_eq]
  · rw [appendAndFlush_queued, usageUpdate_eq]
  · intro hrok
    subst hrok
    rw [appendAndFlush_rconcat, usageUpdate_eq]
  · rw [usageUpdate_eq]

/-- C9, witness: a chunk with `delta.content = None` carrying usage. -/
theorem C9_amended_witness :
    extract_chunk_text ⟨[⟨none⟩], some ⟨some 5, some 2, some 3, none⟩⟩
      = some ((none : Option String).getD "") ∧
    stepEvent 25 150 true initPState
        (.chunkArrived ⟨[⟨none⟩], some ⟨some 5, some 2, some 3, none⟩⟩
          (.redisVal (some .active)))
      = (appendAndFlush 25 150 true
          (usageUpdate initPState ⟨[⟨none⟩], some ⟨some 5, some 2, some 3, none⟩⟩)
          ((none : Option String).getD ""), false) ∧
    (appendAndFlush 25 150 true
        (usageUpdate initPState ⟨[⟨none⟩], some ⟨some 5, some 2, some 3, none⟩⟩)
        ((none : Option String).getD "")).all_chunks
      = initPState.all_chunks ++ [(none : Option String).getD ""] ∧
    (appendAndFlush 25 150 true
        (usageUpdate initPState ⟨[⟨none⟩], some ⟨some 5, some 2, some 3, none⟩⟩)
        ((none : Option String).getD "")).queued
      = initPState.queued ++ [(none : Option String).getD ""] ∧
    (true = true →
      (appendAndFlush 25 150 true
          (usageUpdate initPState ⟨[⟨none⟩], some ⟨some 5, some 2, some 3, none⟩⟩)
          ((none : Option String).getD "")).redisList
          ++ (appendAndFlush 25 150 true
              (usageUpdate initPState
                ⟨[⟨none⟩], some ⟨some 5, some 2, some 3, none⟩⟩)
              ((none : Option String).getD "")).redis_buf
        = initPState.redisList ++ initPState.redis_buf
            ++ [(none : Option String).getD ""]) ∧
    (usageUpdate initPState
        ⟨[⟨none⟩], some ⟨some 5, some 2, some 3, none⟩⟩).final_usage
      = (match (⟨[⟨none⟩], some ⟨some 5, some 2, some 3, none⟩⟩
            : StreamChunk).usage with
         | some u => some u
         | none => initPState.final_usage) ∧
    stepEvent 25 150 true initPState
        (.chunkArrived ⟨[], none⟩ (.redisVal (some .active)))
      = (usageUpdate initPState ⟨[], none⟩, false) :=
  C9_amended 25 150 true initPState ⟨[⟨none⟩], some ⟨some 5, some 2, some 3, none⟩⟩
    ⟨[], none⟩ (.redisVal (some .active)) ⟨none⟩ [] rfl (by decide) rfl

/-! ## Sentinel filtering of the Emitter and the cache Replayer (C6) -/

theorem emitFrames_sentinelFree (queued : List String)
    (hq : ∀ c ∈ queued, isSentinelLit c = true ∨ sentinelFree c = true) :
    ∀ (i idv : Int) (tx : String),
      Frame.chunkF idv tx ∈ emitFrames i queued → sentinelFree tx = true := by
  induction queued with
  | nil => intro i idv tx h; simp [emitFrames] at h
  | cons c cs ih =>
    intro i idv tx h
    have hc := hq c (by simp)
    have hcs : ∀ c' ∈ cs, isSentinelLit c' = true ∨ sentinelFree c' = true :=
      fun c' h' => hq c' (by simp [h'])
    unfold emitFrames at h
    split_ifs at h with h1 h2 h3 h4
    · rcases List.mem_cons.mp h with hf | hf
      · exact absurd hf (by simp)
      · exact ih hcs i idv tx hf
    · simp at h
    · simp at h
    · simp at h
    · rcases List.mem_cons.mp h with hf | hf
      · have htx : tx = c := by
          simpa using congrArg (fun fr => match fr with
            | Frame.chunkF _ t => t
            | _ => tx) hf
        rcases hc with hs | hfree
        · rw [isSentinelLit] at hs
          simp [h1, h2, h3, h4] at hs
        · rw [htx]; exact hfree
      · exact ih hcs (i + 1) idv tx hf

theorem replayPoll_sentinelFree (chunks : List String)
    (hb : ∀ c ∈ chunks, isSentinelLit c = true ∨ sentinelFree c = true) :
    ∀ (sent idv : Int) (tx : String),
      Frame.chunkF idv tx ∈ (replayPoll sent chunks).1 →
        sentinelFree tx = true := by
  induction chunks with
  | nil => intro sent idv tx h; simp [replayPoll] at h
  | cons c cs ih =>
    intro sent idv tx h
    have hc := hb c (by simp)
    have hcs : ∀ c' ∈ cs, isSentinelLit c' = true ∨ sentinelFree c' = true :=
      fun c' h' => hb c' (by simp [h'])
    unfold replayPoll at h
    dsimp only at h
    split_ifs at h with h1
    · exact ih hcs (sent + 1) idv tx h
    · rcases List.mem_cons.mp h with hf | hf
      · have htx : tx = c := by
          simpa using congrArg (fun fr => match fr with
            | Frame.chunkF _ t => t
            | _ => tx) hf
        rcases hc with hs | hfree
        · exact absurd hs (by simp [h1])
        · rw [htx]; exact hfree
      · exact ih hcs (sent + 1) idv tx hf

/-- C6, amended.  On the channel path (SSE Emitter) and the cache path of
the Replayer, a chunk exactly equal to a sentinel is translated into a
comment/terminal frame or skipped; hence when every forwarded chunk either
IS a sentinel literal or contains no sentinel occurrence, the data of every
delivered `chunk` frame is sentinel-free.  (The DB-fallback path forwards
the partial `llm_response` slice WITHOUT stripping — see the
counterexample — and a sentinel embedded strictly inside a larger upstream
chunk would also be forwarded verbatim.) -/
theorem C6_amended (chatUuid : String) (threadId : Option Nat)
    (queued chunks : List String) (i sent idv jdv kdv : Int)
    (tx ty tz : String)
    (hq : ∀ c ∈ queued, isSentinelLit c = true ∨ sentinelFree c = true)
    (hb : ∀ c ∈ chunks, isSentinelLit c = true ∨ sentinelFree c = true)
    (h1 : Frame.chunkF idv tx ∈ stream_generator chatUuid threadId queued)
    (h2 : Frame.chunkF jdv ty ∈ emitFrames i queued)
    (h3 : Frame.chunkF kdv tz ∈ (replayPoll sent chunks).1) :
    sentinelFree tx = true ∧ sentinelFree ty = true ∧
    sentinelFree tz = true := by
  refine ⟨?_, emitFrames_sentinelFree queued hq i jdv ty h2,
    replayPoll_sentinelFree chunks hb sent kdv tz h3⟩
  unfold stream_generator at h1
  rcases List.mem_cons.mp h1 with hf | hf
  · exact absurd hf (by simp)
  · exact emitFrames_sentinelFree queued hq 0 idv tx hf

/-- C6, witness: the Emitter on channel `["hello", DONE]` and the cache
Replayer on Buffer slice `["a", HEARTBEAT]`. -/
theorem C6_amended_witness :
    sentinelFree "hello" = true ∧ sentinelFree "hello" = true ∧
    sentinelFree "a" = true :=
  C6_amended "u" (some 1) ["hello", DONE_PLACEHOLDER]
    ["a", HEARTBEAT_PLACEHOLDER] 0 (-1) 0 0 0 "hello" "hello" "a"
    (by decide) (by decide) (by decide) (by decide) (by decide)

/-! ## The response cleaner, compositionally (toward C2) -/

theorem isPrefixOfC_length : ∀ {p s : List Char},
    isPrefixOfC p s = true → p.length ≤ s.length := by
  intro p
  induction p with
  | nil => intro s _; simp
  | cons b bs ih =>
    intro s h
    cases s with
    | nil => simp [isPrefixOfC] at h
    | cons c cs =>
      rw [isPrefixOfC, Bool.and_eq_true] at h
      have := ih h.2
      simp only [List.length_cons]
      omega

theorem isPrefixOfC_mem : ∀ {p s : List Char},
    isPrefixOfC p s = true → ∀ a ∈ p, a ∈ s := by
  intro p
  induction p with
  | nil => intro s _ a ha; simp at ha
  | cons b bs ih =>
    intro s h a ha
    cases s with
    | nil => simp [isPrefixOfC] at h
    | cons c cs =>
      rw [isPrefixOfC, Bool.and_eq_true] at h
      rcases List.mem_cons.mp ha with hab | hab
      · have hac : a = c := by rw [hab]; exact beq_iff_eq.mp h.1
        rw [hac]
        exact List.mem_cons_self _ _
      · exact List.mem_cons_of_mem _ (ih h.2 a hab)

theorem matchSent_some_length (s t : List Char) (h : matchSent s = some t) :
    t.length < s.length := by
  unfold matchSent at h
  split_ifs at h with h1 h2 h3 h4
  · injection h with h'
    subst h'
    rw [List.length_drop]
    have hp := isPrefixOfC_length h1
    have hl : hbL.length = 11 := rfl
    omega
  · injection h with h'
    subst h'
    rw [List.length_drop]
    have hp := isPrefixOfC_length h2
    have hl : itL.length = 15 := rfl
    omega
  · injection h with h'
    subst h'
    rw [List.length_drop]
    have hp := isPrefixOfC_length h3
    have hl : flL.length = 12 := rfl
    omega
  · injection h with h'
    subst h'
    rw [List.length_drop]
    have hp := isPrefixOfC_length h4
    have hl : dnL.length = 10 := rfl
    omega

theorem removeSentF_fuel : ∀ (n : Nat) (s : List Char) (k : Nat),
    s.length ≤ n → s.length ≤ k → removeSentF n s = removeSentF k s := by
  intro n
  induction n with
  | zero =>
    intro s k hn _
    have : s = [] := List.eq_nil_of_length_eq_zero (by omega)
    subst this
    cases k <;> rfl
  | succ n ih =>
    intro s k hn hk
    cases s with
    | nil => cases k <;> rfl
    | cons c rest =>
      cases k with
      | zero => simp at hk
      | succ k' =>
        rw [removeSentF, removeSentF]
        cases hm : matchSent (c :: rest) with
        | some tail =>
          have hlt := matchSent_some_length _ _ hm
          simp only [List.length_cons] at hn hk hlt
          exact ih tail k' (by omega) (by omega)
        | none =>
          have := ih rest k' (by simp at hn; omega) (by simp at hk; omega)
          rw [this]

theorem removeSent_of_matchSent (s tail : List Char)
    (h : matchSent s = some tail) : removeSent s = removeSent tail := by
  cases s with
  | nil =>
    have hnil : matchSent ([] : List Char) = none := rfl
    rw [hnil] at h
    exact Option.noConfusion h
  | cons c rest =>
    have hlt := matchSent_some_length _ _ h
    show removeSentF (rest.length + 1) (c :: rest) = _
    rw [removeSentF, h]
    simp only [List.length_cons] at hlt
    exact removeSentF_fuel rest.length tail tail.length (by omega) (by omega)

theorem removeSent_of_nomatch (c : Char) (rest : List Char)
    (h : matchSent (c :: rest) = none) :
    removeSent (c :: rest) = c :: removeSent rest := by
  show removeSentF (rest.length + 1) (c :: rest) = _
  rw [removeSentF, h]
  rfl

theorem matchSent_head_ne (c : Char) (rest : List Char) (hne : c ≠ '<') :
    matchSent (c :: rest) = none := by
  have hb : ('<' == c) = false := beq_eq_false_iff_ne.mpr (Ne.symm hne)
  have h1 : isPrefixOfC hbL (c :: rest) = false := by
    show isPrefixOfC ('<' :: (":<alive>:>").toList) (c :: rest) = false
    rw [isPrefixOfC, hb, Bool.false_and]
  have h2 : isPrefixOfC itL (c :: rest) = false := by
    show isPrefixOfC ('<' :: (":<interrupt>:>").toList) (c :: rest) = false
    rw [isPrefixOfC, hb, Bool.false_and]
  have h3 : isPrefixOfC flL (c :: rest) = false := by
    show isPrefixOfC ('<' :: (":<failed>:>").toList) (c :: rest) = false
    rw [isPrefixOfC, hb, Bool.false_and]
  have h4 : isPrefixOfC dnL (c :: rest) = false := by
    show isPrefixOfC ('<' :: (":<done>:>").toList) (c :: rest) = false
    rw [isPrefixOfC, hb, Bool.false_and]
  unfold matchSent
  rw [h1, h2, h3, h4]
  rfl

theorem removeSent_append_ltfree (t u : List Char)
    (h : ∀ ch ∈ t, ¬ ch = '<') :
    removeSent (t ++ u) = t ++ removeSent u := by
  induction t with
  | nil => simp
  | cons c t' ih =>
    have hc : c ≠ '<' := h c (by simp)
    have ht' : ∀ ch ∈ t', ¬ ch = '<' := fun ch hch => h ch (by simp [hch])
    rw [List.cons_append,
      removeSent_of_nomatch c (t' ++ u) (matchSent_head_ne c _ hc), ih ht']
    rfl

theorem removeSent_hb_append (u : List Char) :
    removeSent (hbL ++ u) = removeSent u :=
  removeSent_of_matchSent _ _ rfl

theorem removeSent_it_append (u : List Char) :
    removeSent (itL ++ u) = removeSent u :=
  removeSent_of_matchSent _ _ rfl

theorem removeSent_fl_append (u : List Char) :
    removeSent (flL ++ u) = removeSent u :=
  removeSent_of_matchSent _ _ rfl

theorem removeSent_dn_append (u : List Char) :
    removeSent (dnL ++ u) = removeSent u :=
  removeSent_of_matchSent _ _ rfl

theorem isSentinelLit_toList (x : String) (h : isSentinelLit x = true) :
    x.toList = hbL ∨ x.toList = itL ∨ x.toList = flL ∨ x.toList = dnL := by
  unfold isSentinelLit at h
  simp only [Bool.or_eq_true, decide_eq_true_eq] at h
  rcases h with (h | h) | h
  · rcases h with h | h
    · exact Or.inl (by rw [h]; rfl)
    · exact Or.inr (Or.inr (Or.inr (by rw [h]; rfl)))
  · exact Or.inr (Or.inr (Or.inl (by rw [h]; rfl)))
  · exact Or.inr (Or.inl (by rw [h]; rfl))

theorem ltfree_not_sentinel (x : String)
    (h : ∀ ch ∈ x.toList, ¬ ch = '<') : isSentinelLit x = false := by
  cases hb : isSentinelLit x
  · rfl
  · exfalso
    rcases isSentinelLit_toList x hb with hl | hl | hl | hl <;>
      exact h '<' (by rw [hl]; decide) rfl

theorem removeSent_flatten : ∀ chunks : List String,
    (∀ x ∈ chunks, isSentinelLit x = true ∨ ∀ ch ∈ x.toList, ¬ ch = '<') →
    removeSent ((chunks.map String.toList).flatten)
      = (((chunks.filter (fun x => !(isSentinelLit x))).map
          String.toList).flatten) := by
  intro chunks
  induction chunks with
  | nil => intro _; rfl
  | cons x xs ih =>
    intro h
    have hx := h x (by simp)
    have hxs : ∀ y ∈ xs, isSentinelLit y = true ∨ ∀ ch ∈ y.toList, ¬ ch = '<' :=
      fun y hy => h y (by simp [hy])
    simp only [List.map_cons, List.flatten_cons]
    by_cases hs : isSentinelLit x = true
    · have hrm : removeSent (x.toList ++ (xs.map String.toList).flatten)
          = removeSent ((xs.map String.toList).flatten) := by
        rcases isSentinelLit_toList x hs with hl | hl | hl | hl <;>
          rw [hl] <;>
          first
            | exact removeSent_hb_append _
            | exact removeSent_it_append _
            | exact removeSent_fl_append _
            | exact removeSent_dn_append _
      rw [hrm, ih hxs, List.filter_cons_of_neg (by simp [hs])]
    · have hfree : ∀ ch ∈ x.toList, ¬ ch = '<' := hx.resolve_left hs
      rw [removeSent_append_ltfree _ _ hfree, ih hxs,
        List.filter_cons_of_pos (by simp [Bool.not_eq_true] at hs; simp [hs])]
      simp

theorem toList_foldl_append : ∀ (l : List String) (a : String),
    (l.foldl (· ++ ·) a).toList = a.toList ++ (l.map String.toList).flatten := by
  intro l
  induction l with
  | nil => intro a; simp
  | cons x xs ih =>
    intro a
    rw [List.foldl_cons, ih]
    show (a ++ x).data ++ _ = a.data ++ _
    rw [String.data_append]
    simp [String.toList, List.append_assoc]

theorem toList_join (l : List String) :
    (String.join l).toList = (l.map String.toList).flatten := by
  show (l.foldl (· ++ ·) "").toList = _
  rw [toList_foldl_append]
  rfl

theorem mem_of_mem_dropWhile {p : Char → Bool} {l : List Char} {a : Char}
    (h : a ∈ l.dropWhile p) : a ∈ l := by
  induction l with
  | nil => simp at h
  | cons c cs ih =>
    rw [List.dropWhile_cons] at h
    split_ifs at h with hc
    · exact List.mem_cons_of_mem _ (ih h)
    · exact h

theorem mem_of_mem_pyStrip {l : List Char} {a : Char} (h : a ∈ pyStrip l) :
    a ∈ l := by
  unfold pyStrip at h
  rw [List.mem_reverse] at h
  have h1 := mem_of_mem_dropWhile h
  rw [List.mem_reverse] at h1
  exact mem_of_mem_dropWhile h1

theorem hasSub_mem : ∀ (pat l : List Char), hasSub pat l = true →
    ∀ a ∈ pat, a ∈ l := by
  intro pat l
  induction l with
  | nil =>
    intro h a ha
    rw [hasSub, List.isEmpty_eq_true] at h
    subst h
    simp at ha
  | cons c cs ih =>
    intro h a ha
    rw [hasSub, Bool.or_eq_true] at h
    rcases h with h | h
    · exact isPrefixOfC_mem h a ha
    · exact List.mem_cons_of_mem _ (ih h a ha)

theorem sentinelFree_of_ltfree (l : List Char)
    (h : ∀ ch ∈ l, ¬ ch = '<') : sentinelFree ⟨l⟩ = true := by
  have hlt : ∀ pat : List Char, '<' ∈ pat → hasSub pat l = false := by
    intro pat hp
    cases hh : hasSub pat l
    · rfl
    · exact absurd rfl (h '<' (hasSub_mem pat l hh '<' hp))
  unfold sentinelFree
  have hx : (String.mk l).toList = l := rfl
  rw [hx, hlt hbL (by decide), hlt itL (by decide), hlt flL (by decide),
    hlt dnL (by decide)]
  rfl

theorem ev_ltfree {e : LoopEvent} {tx : String} (he : eventTextLtFree e = true)
    (h : eventText e = some tx) :
    isSentinelLit tx = true ∨ ∀ ch ∈ tx.toList, ¬ ch = '<' := by
  cases e with
  | stalled probe =>
    left
    have htx : tx = HEARTBEAT_PLACEHOLDER := by
      have : some HEARTBEAT_PLACEHOLDER = some tx := h
      exact (Option.some.inj this).symm
    rw [htx]
    decide
  | chunkArrived c probe =>
    right
    have h' : extract_chunk_text c = some tx := h
    have he' : (match extract_chunk_text c with
        | some ty => ty.toList.all fun ch => !(ch == '<')
        | none => true) = true := he
    rw [h'] at he'
    intro ch hch
    have := List.all_eq_true.mp he' ch hch
    simpa using this

/-- Every entry of `all_chunks` produced by the loop is either a sentinel
literal (a HEARTBEAT or the mid-loop INTERRUPTED) or a `<`-free upstream
text, provided every upstream text is `<`-free. -/
theorem runLoop_chunks_prop (n m : Nat) (rok : Bool) (events : List LoopEvent) :
    ∀ s : PState, (∀ e ∈ events, eventTextLtFree e = true) →
      (∀ x ∈ s.all_chunks,
        isSentinelLit x = true ∨ ∀ ch ∈ x.toList, ¬ ch = '<') →
      ∀ x ∈ (runLoop n m rok s events).1.all_chunks,
        isSentinelLit x = true ∨ ∀ ch ∈ x.toList, ¬ ch = '<' := by
  induction events with
  | nil =>
    intro s _ hs x hx
    exact hs x (by simpa [runLoop] using hx)
  | cons e es ih =>
    intro s hev hs
    have he : eventTextLtFree e = true := hev e (by simp)
    have hes : ∀ e' ∈ es, eventTextLtFree e' = true :=
      fun e' h' => hev e' (by simp [h'])
    have hac := stepEvent_all_chunks n m rok s e
    rcases hstep : stepEvent n m rok s e with ⟨s', brk⟩
    rw [hstep] at hac
    dsimp only at hac
    have hs' : ∀ x ∈ s'.all_chunks,
        isSentinelLit x = true ∨ ∀ ch ∈ x.toList, ¬ ch = '<' := by
      intro x hx
      rw [hac] at hx
      rcases List.mem_append.mp hx with hx1 | hx2
      · exact hs x hx1
      · cases htx : eventText e with
        | none => rw [htx] at hx2; simp at hx2
        | some tx =>
          rw [htx] at hx2
          rcases List.mem_cons.mp hx2 with hx3 | hx3
          · rw [hx3]; exact ev_ltfree he htx
          · have hint : x = INTERRUPTED_PLACEHOLDER := by
              cases brk with
              | true => simpa using hx3
              | false => simp at hx3
            rw [hint]
            left
            decide
    cases brk with
    | true =>
      intro x hx
      have hrun : runLoop n m rok s (e :: es) = (s', true) := by
        simp [runLoop, hstep]
      rw [hrun] at hx
      exact hs' x hx
    | false =>
      intro x hx
      have hrun : runLoop n m rok s (e :: es) = runLoop n m rok s' es := by
        simp [runLoop, hstep]
      rw [hrun] at hx
      exact ih s' hes hs' x hx

/-- C2, amended.  For every chat reaching finalization whose upstream chunk
texts contain no `<` character, the final DB write stores exactly the
concatenation of the non-sentinel accumulated chunks (a single left-to-right
removal pass of the sentinel literals) with surrounding whitespace trimmed,
and the stored `llm_response` contains no occurrence of any sentinel
literal.  (Without the `<`-freeness restriction, the single `re.sub` pass
can manufacture a new sentinel occurrence — see the counterexample.) -/
theorem C2_amended (n m : Nat) (rok sok : Bool) (events : List LoopEvent)
    (t : Terminator) (hev : ∀ e ∈ events, eventTextLtFree e = true) :
    ∃ w, (producer_model n m rok sok events t).dbWrites.getLast? = some w ∧
      w.llm_response
        = clean_response
            (String.join (producer_model n m rok sok events t).all_chunks) ∧
      w.llm_response.toList
        = pyStrip ((((producer_model n m rok sok events t).all_chunks.filter
            (fun x => !(isSentinelLit x))).map String.toList).flatten) ∧
      sentinelFree w.llm_response = true := by
  have hprop : ∀ x ∈ (producer_model n m rok sok events t).all_chunks,
      isSentinelLit x = true ∨ ∀ ch ∈ x.toList, ¬ ch = '<' := by
    unfold producer_model
    by_cases ht : t = .streamNone
    · subst ht
      rw [if_pos rfl]
      dsimp only
      rw [producer_finalize_all_chunks]
      intro x hx
      rcases List.mem_append.mp hx with hx1 | hx2
      · split at hx1 <;> simp [initPState] at hx1
        rw [hx1]
        left
        decide
      · have : x = terminalFor (producerStatus false .streamNone) := by
          simpa using hx2
        rw [this]
        left
        decide
    · rw [if_neg ht]
      rcases hr : runLoop n m rok initPState events with ⟨sL, brk⟩
      dsimp only
      rw [producer_finalize_all_chunks]
      have hloop := runLoop_chunks_prop n m rok events initPState hev
        (by simp [initPState])
      rw [hr] at hloop
      dsimp only at hloop
      intro x hx
      rcases List.mem_append.mp hx with hx1 | hx2
      · rcases hsplit : (¬ brk = true ∧
            (t = .totalTimeout ∨ t = .upstreamErr) : Prop) with _
        by_cases hcond : ¬ brk = true ∧ (t = .totalTimeout ∨ t = .upstreamErr)
        · rw [if_pos hcond] at hx1
          rcases List.mem_append.mp hx1 with hx3 | hx3
          · exact hloop x hx3
          · have : x = FAILED_PLACEHOLDER := by simpa using hx3
            rw [this]; left; decide
        · rw [if_neg hcond] at hx1
          exact hloop x hx1
      · have : x = terminalFor (producerStatus brk t) := by simpa using hx2
        rw [this]
        left
        cases hbk : brk <;> cases t <;> decide
  have hdb : (producer_model n m rok sok events t).dbWrites.getLast?
      = some { llm_response := clean_response
                 (String.join (producer_model n m rok sok events t).all_chunks),
               updated_at_set := true,
               usageAndStatus :=
                 match (if t = .streamNone then (initPState, false)
                        else runLoop n m rok initPState events).1.final_usage with
                 | some u => some (u, (producerStatus
                     (if t = .streamNone then (initPState, false)
                      else runLoop n m rok initPState events).2 t).val)
                 | none => none } := by
    show (producer_finalize rok sok _ _ t).dbWrites.getLast? = _
    rw [producer_finalize_dbWrites, List.getLast?_concat]
    have hall : (producer_model n m rok sok events t).all_chunks
        = (if ¬ (if t = .streamNone then (initPState, false)
                 else runLoop n m rok initPState events).2
              ∧ (t = .totalTimeout ∨ t = .upstreamErr)
           then (if t = .streamNone then (initPState, false)
                 else runLoop n m rok initPState events).1.all_chunks
                ++ [FAILED_PLACEHOLDER]
           else (if t = .streamNone then (initPState, false)
                 else runLoop n m rok initPState events).1.all_chunks)
          ++ [terminalFor (producerStatus
              (if t = .streamNone then (initPState, false)
               else runLoop n m rok initPState events).2 t)] := by
      show (producer_finalize rok sok _ _ t).all_chunks = _
      rw [producer_finalize_all_chunks]
    rw [hall]
  refine ⟨_, hdb, rfl, ?_, ?_⟩
  · show (clean_response
        (String.join (producer_model n m rok sok events t).all_chunks)).toList
      = _
    have h1 : (clean_response
        (String.join (producer_model n m rok sok events t).all_chunks)).toList
        = pyStrip (removeSent
            ((String.join
              (producer_model n m rok sok events t).all_chunks).toList)) := rfl
    rw [h1, toList_join, removeSent_flatten _ hprop]
  · have hfree : ∀ ch ∈ pyStrip ((((producer_model n m rok sok events
        t).all_chunks.filter (fun x => !(isSentinelLit x))).map
          String.toList).flatten), ¬ ch = '<' := by
      intro ch hch
      have hch1 := mem_of_mem_pyStrip hch
      rw [List.mem_flatten] at hch1
      obtain ⟨lx, hlx, hchlx⟩ := hch1
      rw [List.mem_map] at hlx
      obtain ⟨x, hxmem, hxeq⟩ := hlx
      rw [List.mem_filter] at hxmem
      obtain ⟨hxA, hxns⟩ := hxmem
      have := hprop x hxA
      rcases this with hsent | hfree
      · rw [hsent] at hxns
        simp at hxns
      · exact hfree ch (by rw [hxeq]; exact hchlx)
    have h2 : (clean_response
        (String.join (producer_model n m rok sok events t).all_chunks)).toList
        = pyStrip ((((producer_model n m rok sok events t).all_chunks.filter
            (fun x => !(isSentinelLit x))).map String.toList).flatten) := by
      have h1 : (clean_response
          (String.join (producer_model n m rok sok events t).all_chunks)).toList
          = pyStrip (removeSent
              ((String.join
                (producer_model n m rok sok events t).all_chunks).toList)) := rfl
      rw [h1, toList_join, removeSent_flatten _ hprop]
    have h3 : clean_response
        (String.join (producer_model n m rok sok events t).all_chunks)
        = String.mk (pyStrip ((((producer_model n m rok sok events
            t).all_chunks.filter (fun x => !(isSentinelLit x))).map
              String.toList).flatten)) := String.ext h2
    rw [h3]
    exact sentinelFree_of_ltfree _ hfree

/-- C2, witness: upstream texts `"Hi "` and `"there"` (no `<`), one stall,
then end-of-stream. -/
theorem C2_amended_witness :
    ∃ w, (producer_model 25 150 true true
        [.chunkArrived ⟨[⟨some "Hi "⟩], none⟩ (.redisVal (some .active)),
         .stalled (.redisVal (some .active)),
         .chunkArrived ⟨[⟨some "there"⟩], none⟩ (.redisVal (some .active))]
        .eos).dbWrites.getLast? = some w ∧
      w.llm_response
        = clean_response (String.join (producer_model 25 150 true true
            [.chunkArrived ⟨[⟨some "Hi "⟩], none⟩ (.redisVal (some .active)),
             .stalled (.redisVal (some .active)),
             .chunkArrived ⟨[⟨some "there"⟩], none⟩ (.redisVal (some .active))]
            .eos).all_chunks) ∧
      w.llm_response.toList
        = pyStrip ((((producer_model 25 150 true true
            [.chunkArrived ⟨[⟨some "Hi "⟩], none⟩ (.redisVal (some .active)),
             .stalled (.redisVal (some .active)),
             .chunkArrived ⟨[⟨some "there"⟩], none⟩ (.redisVal (some .active))]
            .eos).all_chunks.filter
              (fun x => !(isSentinelLit x))).map String.toList).flatten) ∧
      sentinelFree w.llm_response = true :=
  C2_amended 25 150 true true
    [.chunkArrived ⟨[⟨some "Hi "⟩], none⟩ (.redisVal (some .active)),
     .stalled (.redisVal (some .active)),
     .chunkArrived ⟨[⟨some "there"⟩], none⟩ (.redisVal (some .active))]
    .eos (by decide)

end LLMFastAPI
